import Mathlib

/-!
Shallow embedding of `networks.py` (U-Net style encoder-decoder networks
with attention gating: PALayer, CALayer, DoubleConv, OutConv, Down, Up,
AttentiveDown, AttentiveUp, AttentiveDoubleConv, BaseNet, IAN, ANSN,
FuseNet).

Tensors are 4-axis (batch, channel, height, width) arrays of rationals:
the shape is explicit and the entries are a total function on indices
(entries outside the shape are irrelevant to the semantics, which only
reads in-range indices).  Every layer forward is `Option`-valued: `none`
models the framework raising an irrecoverable runtime error (channel
mismatch, kernel larger than the padded input, pooling to an empty
output, concatenation of misaligned tensors), mirroring the fail-fast
error model of the code.
-/

/-- A 4-dimensional tensor (batch, channels, height, width) of rational
entries.  `data` is a total function; indices outside the shape carry no
meaning. -/
structure Tensor where
  batch : ℕ
  channels : ℕ
  height : ℕ
  width : ℕ
  data : ℕ → ℕ → ℕ → ℕ → ℚ

/-- The shape of a tensor as a tuple (batch, channels, height, width). -/
def Tensor.shape (x : Tensor) : ℕ × ℕ × ℕ × ℕ :=
  (x.batch, x.channels, x.height, x.width)

/-- Zero-padded entry access: `x.entry n c i j` with signed spatial
indices, 0 outside the spatial extent.  This is the view of the input
seen by a convolution with zero padding and by `F.pad`. -/
def Tensor.entry (x : Tensor) (n c : ℕ) (i j : ℤ) : ℚ :=
  if 0 ≤ i ∧ i < (x.height : ℤ) ∧ 0 ≤ j ∧ j < (x.width : ℤ) then
    x.data n c i.toNat j.toNat
  else 0

/-- Pointwise application of a scalar function to every entry. -/
def Tensor.map (x : Tensor) (f : ℚ → ℚ) : Tensor :=
  { x with data := fun n c i j => f (x.data n c i j) }

/-- `torch.relu`: the rectifier, max(x, 0). -/
def relu (x : ℚ) : ℚ := max x 0

/-- `nn.LeakyReLU(0.2)`: identity on nonnegatives, slope 1/5 on
negatives. -/
def leakyRelu (x : ℚ) : ℚ := if x < 0 then (1 / 5) * x else x

/-- Modelled from the spec: the framework's bounding (0,1) output
nonlinearity (`nn.Sigmoid`, a "bounding activation: a nonlinearity
constraining output to a fixed range", per the glossary).  The logistic
function is transcendental, hence not expressible over ℚ; it is modelled
by the algebraic sigmoid x ↦ 1/2 + x / (2(1+|x|)), which shares the
defining properties the architecture relies on: strictly increasing,
value 1/2 at 0, odd symmetry around (0, 1/2), and range contained in the
open interval (0, 1). -/
def sigmoid (x : ℚ) : ℚ := 1 / 2 + x / (2 * (1 + |x|))

/-- Raw learnable parameters of one convolution: a weight function
(out-channel, in-channel, kernel row, kernel column) and a bias
function (out-channel). -/
structure ConvW where
  w : ℕ → ℕ → ℕ → ℕ → ℚ
  b : ℕ → ℚ

/-- `nn.Conv2d(inC, outC, k, padding = p)` with stride 1: declared
channel numbers, square kernel size, symmetric zero padding, weights and
bias. -/
structure Conv2d where
  inC : ℕ
  outC : ℕ
  k : ℕ
  p : ℕ
  weight : ℕ → ℕ → ℕ → ℕ → ℚ
  bias : ℕ → ℚ

def Conv2d.make (in_channels out_channels k p : ℕ) (w : ConvW) : Conv2d :=
  ⟨in_channels, out_channels, k, p, w.w, w.b⟩

/-- Stride-1 2-d cross-correlation with zero padding, the semantics of
`nn.Conv2d`.  Fails (`none`) when the input channel count differs from
the declared one, or when the kernel exceeds the padded input extent
(the framework's "kernel size can't be greater than actual input size"
error).  Output spatial size: H + 2p - k + 1. -/
def Conv2d.forward (m : Conv2d) (x : Tensor) : Option Tensor :=
  if x.channels = m.inC ∧ m.k ≤ x.height + 2 * m.p ∧ m.k ≤ x.width + 2 * m.p then
    some { batch := x.batch
           channels := m.outC
           height := x.height + 2 * m.p + 1 - m.k
           width := x.width + 2 * m.p + 1 - m.k
           data := fun n co i j =>
             m.bias co + ∑ ci ∈ Finset.range m.inC, ∑ a ∈ Finset.range m.k,
               ∑ b ∈ Finset.range m.k,
                 m.weight co ci a b * x.entry n ci ((i : ℤ) + a - m.p) ((j : ℤ) + b - m.p) }
  else none

/-- `nn.ConvTranspose2d(inC, outC, kernel_size = 2, stride = 2)`:
the only transposed convolution in the code.  With kernel 2 and stride 2
each output pixel (i, j) receives exactly one contribution, from input
pixel (i / 2, j / 2) through kernel tap (i mod 2, j mod 2); the output
spatial size is twice the input's.  The weight is indexed
(in-channel, out-channel, row, column) as in the framework. -/
structure ConvTranspose2d where
  inC : ℕ
  outC : ℕ
  weight : ℕ → ℕ → ℕ → ℕ → ℚ
  bias : ℕ → ℚ

/-- Fails on a channel mismatch, and on an empty spatial extent (the
framework rejects the computed zero output size, "output size is too
small"). -/
def ConvTranspose2d.forward (m : ConvTranspose2d) (x : Tensor) : Option Tensor :=
  if x.channels = m.inC ∧ 1 ≤ x.height ∧ 1 ≤ x.width then
    some { batch := x.batch
           channels := m.outC
           height := 2 * x.height
           width := 2 * x.width
           data := fun n co i j =>
             m.bias co + ∑ ci ∈ Finset.range m.inC,
               m.weight ci co (i % 2) (j % 2) * x.data n ci (i / 2) (j / 2) }
  else none

/-- `nn.BatchNorm2d` in inference form.  Modelled from the spec
("optionally followed by batch normalization"): with frozen statistics
batch normalization is the per-channel affine map
x ↦ scale c * x + shift c (scale = gamma / sqrt(var + eps),
shift = beta - scale * mean, folded into two per-channel parameters).
Fails when applied to a tensor whose channel count differs from the
declared number of features. -/
structure BatchNorm2d where
  features : ℕ
  scale : ℕ → ℚ
  shift : ℕ → ℚ

def BatchNorm2d.forward (m : BatchNorm2d) (x : Tensor) : Option Tensor :=
  if x.channels = m.features then
    some { x with data := fun n c i j => m.scale c * x.data n c i j + m.shift c }
  else none

/-- `nn.MaxPool2d(2)`: window 2, stride 2, no padding; spatial sizes are
floor-halved.  Fails when a spatial dimension is below 2 (the
framework's "output size is too small" error). -/
def maxPool2 (x : Tensor) : Option Tensor :=
  if 2 ≤ x.height ∧ 2 ≤ x.width then
    some { batch := x.batch
           channels := x.channels
           height := x.height / 2
           width := x.width / 2
           data := fun n c i j =>
             max (max (x.data n c (2 * i) (2 * j)) (x.data n c (2 * i) (2 * j + 1)))
                 (max (x.data n c (2 * i + 1) (2 * j)) (x.data n c (2 * i + 1) (2 * j + 1))) }
  else none

/-- `nn.AdaptiveAvgPool2d(1)`: global spatial average, output (N, C, 1, 1).
Fails on an empty spatial extent. -/
def adaptiveAvgPool1 (x : Tensor) : Option Tensor :=
  if 1 ≤ x.height ∧ 1 ≤ x.width then
    some { batch := x.batch
           channels := x.channels
           height := 1
           width := 1
           data := fun n c _ _ =>
             (∑ i ∈ Finset.range x.height, ∑ j ∈ Finset.range x.width, x.data n c i j)
               / (x.height * x.width) }
  else none

/-- Source position used by align-corners bilinear interpolation: output
index i of `outLen` samples maps to i * (len - 1) / (outLen - 1). -/
def srcPos (len outLen i : ℕ) : ℚ :=
  if outLen ≤ 1 then 0 else (i * ((len : ℚ) - 1)) / ((outLen : ℚ) - 1)

/-- `nn.Upsample(scale_factor=2, mode='bilinear', align_corners=True)`:
doubles both spatial sizes; each output entry bilinearly interpolates
the four surrounding input entries at the align-corners source
position.  Fails on an empty spatial extent (the framework requires
input and output sizes greater than 0). -/
def upsample2 (x : Tensor) : Option Tensor :=
  if 1 ≤ x.height ∧ 1 ≤ x.width then
    some { batch := x.batch
           channels := x.channels
           height := 2 * x.height
           width := 2 * x.width
           data := fun n c i j =>
             let ph := srcPos x.height (2 * x.height) i
             let pw := srcPos x.width (2 * x.width) j
             let i0 := (⌊ph⌋).toNat
             let j0 := (⌊pw⌋).toNat
             let i1 := min (i0 + 1) (x.height - 1)
             let j1 := min (j0 + 1) (x.width - 1)
             let fh := ph - (i0 : ℚ)
             let fw := pw - (j0 : ℚ)
             (1 - fh) * (1 - fw) * x.data n c i0 j0 + (1 - fh) * fw * x.data n c i0 j1
               + fh * (1 - fw) * x.data n c i1 j0 + fh * fw * x.data n c i1 j1 }
  else none

/-- `F.pad(x, [l, r, t, b])`: zero padding (negative amounts crop, as in
the framework); the new spatial sizes are H + t + b and W + l + r. -/
def padF (x : Tensor) (l r t b : ℤ) : Tensor :=
  { batch := x.batch
    channels := x.channels
    height := ((x.height : ℤ) + t + b).toNat
    width := ((x.width : ℤ) + l + r).toNat
    data := fun n c i j => x.entry n c ((i : ℤ) - t) ((j : ℤ) - l) }

/-- `torch.cat([a, b], dim=1)`: channel concatenation, a's channels
first.  Fails unless batch and spatial sizes agree. -/
def cat2 (a b : Tensor) : Option Tensor :=
  if a.batch = b.batch ∧ a.height = b.height ∧ a.width = b.width then
    some { batch := a.batch
           channels := a.channels + b.channels
           height := a.height
           width := a.width
           data := fun n c i j =>
             if c < a.channels then a.data n c i j else b.data n (c - a.channels) i j }
  else none

/-- Result extent of broadcasting one axis: sizes must be equal or one
of them 1; a size-1 axis stretches to the other's size (including to
size 0). -/
def bcastDim (a b : ℕ) : ℕ := if a = 1 then b else a

/-- Index into an axis of size `a` under broadcasting. -/
def bcastIdx (a i : ℕ) : ℕ := if a = 1 then 0 else i

/-- Elementwise product with broadcasting (`x * y` on tensors): each of
the four axes must be equal or have one side of size 1.  Fails on
incompatible shapes. -/
def mulB (x y : Tensor) : Option Tensor :=
  if (x.batch = y.batch ∨ x.batch = 1 ∨ y.batch = 1)
      ∧ (x.channels = y.channels ∨ x.channels = 1 ∨ y.channels = 1)
      ∧ (x.height = y.height ∨ x.height = 1 ∨ y.height = 1)
      ∧ (x.width = y.width ∨ x.width = 1 ∨ y.width = 1) then
    some { batch := bcastDim x.batch y.batch
           channels := bcastDim x.channels y.channels
           height := bcastDim x.height y.height
           width := bcastDim x.width y.width
           data := fun n c i j =>
             x.data (bcastIdx x.batch n) (bcastIdx x.channels c)
                 (bcastIdx x.height i) (bcastIdx x.width j)
               * y.data (bcastIdx y.batch n) (bcastIdx y.channels c)
                   (bcastIdx y.height i) (bcastIdx y.width j) }
  else none

/-- Raw parameters of a `BatchNorm2d` (two folded per-channel maps). -/
structure BNW where
  scale : ℕ → ℚ
  shift : ℕ → ℚ

/-- Raw parameters of a `DoubleConv`: two convolutions and two
(possibly unused) normalization layers. -/
structure DoubleConvW where
  c1 : ConvW
  c2 : ConvW
  n1 : BNW
  n2 : BNW

/-- `DoubleConv(in_channels, out_channels, norm, leaky)`: conv 3x3 pad 1
(in -> out), optional BatchNorm2d(out), LeakyReLU(0.2) or ReLU,
conv 3x3 pad 1 (out -> out), optional BatchNorm2d(out), same
activation. -/
structure DoubleConv where
  conv1 : Conv2d
  conv2 : Conv2d
  bn1 : BatchNorm2d
  bn2 : BatchNorm2d
  norm : Bool
  leaky : Bool

def DoubleConv.make (in_channels out_channels : ℕ) (norm leaky : Bool)
    (w : DoubleConvW) : DoubleConv :=
  { conv1 := Conv2d.make in_channels out_channels 3 1 w.c1
    conv2 := Conv2d.make out_channels out_channels 3 1 w.c2
    bn1 := ⟨out_channels, w.n1.scale, w.n1.shift⟩
    bn2 := ⟨out_channels, w.n2.scale, w.n2.shift⟩
    norm := norm
    leaky := leaky }

/-- The activation selected by the `leaky` flag. -/
def dcAct (leaky : Bool) : ℚ → ℚ := if leaky then leakyRelu else relu

def DoubleConv.forward (m : DoubleConv) (x : Tensor) : Option Tensor :=
  (m.conv1.forward x).bind fun y1 =>
  (if m.norm then m.bn1.forward y1 else some y1).bind fun y2 =>
  (m.conv2.forward (y2.map (dcAct m.leaky))).bind fun y3 =>
  (if m.norm then m.bn2.forward y3 else some y3).bind fun y4 =>
  some (y4.map (dcAct m.leaky))

/-- `OutConv(in_channels, out_channels, act)`: conv 3x3 pad 1 followed by
the bounding activation when `act` is set, the identity otherwise. -/
structure OutConv where
  conv : Conv2d
  act : Bool

def OutConv.make (in_channels out_channels : ℕ) (act : Bool) (w : ConvW) : OutConv :=
  { conv := Conv2d.make in_channels out_channels 3 1 w, act := act }

def OutConv.forward (m : OutConv) (x : Tensor) : Option Tensor :=
  (m.conv.forward x).map fun y => if m.act then y.map sigmoid else y

/-- `Down(in_channels, out_channels, norm, leaky)`: MaxPool2d(2) then
DoubleConv. -/
structure Down where
  conv : DoubleConv

def Down.make (in_channels out_channels : ℕ) (norm leaky : Bool) (w : DoubleConvW) : Down :=
  ⟨DoubleConv.make in_channels out_channels norm leaky w⟩

def Down.forward (m : Down) (x : Tensor) : Option Tensor :=
  (maxPool2 x).bind m.conv.forward

/-- Raw parameters of an `Up` block: the DoubleConv, plus the transposed
convolution used only when `bilinear` is false. -/
structure UpW where
  conv : DoubleConvW
  upT : ConvW

/-- `Up(in_channels, out_channels, bilinear, norm, leaky)`: bilinear
x2 upsampling (or ConvTranspose2d(in, in // 2, 2, 2)), padding of the
upsampled tensor to the skip tensor's spatial size, concatenation
[x2, x1] on the channel axis, then DoubleConv(in, out). -/
structure Up where
  bilinear : Bool
  upT : ConvTranspose2d
  conv : DoubleConv

def Up.make (in_channels out_channels : ℕ) (bilinear norm leaky : Bool) (w : UpW) : Up :=
  { bilinear := bilinear
    upT := ⟨in_channels, in_channels / 2, w.upT.w, w.upT.b⟩
    conv := DoubleConv.make in_channels out_channels norm leaky w.conv }

def Up.forward (m : Up) (x1 x2 : Tensor) : Option Tensor :=
  (if m.bilinear then upsample2 x1 else m.upT.forward x1).bind fun u =>
  let diffY : ℤ := (x2.height : ℤ) - (u.height : ℤ)
  let diffX : ℤ := (x2.width : ℤ) - (u.width : ℤ)
  let padded := padF u (diffX.fdiv 2) (diffX - diffX.fdiv 2) (diffY.fdiv 2) (diffY - diffY.fdiv 2)
  (cat2 x2 padded).bind m.conv.forward

/-- Raw parameters of a `PALayer` (two 1x1 convolutions). -/
structure PALayerW where
  c1 : ConvW
  c2 : ConvW

/-- `PALayer(channel)`: pixel attention; 1x1 conv channel -> channel // 8,
ReLU, 1x1 conv channel // 8 -> 1, Sigmoid, then elementwise product with
the input. -/
structure PALayer where
  conv1 : Conv2d
  conv2 : Conv2d

def PALayer.make (channel : ℕ) (w : PALayerW) : PALayer :=
  { conv1 := Conv2d.make channel (channel / 8) 1 0 w.c1
    conv2 := Conv2d.make (channel / 8) 1 1 0 w.c2 }

/-- The gate map `self.pa(x)` of a PALayer. -/
def PALayer.gate (m : PALayer) (x : Tensor) : Option Tensor :=
  (m.conv1.forward x).bind fun y1 =>
  (m.conv2.forward (y1.map relu)).map fun y2 => y2.map sigmoid

def PALayer.forward (m : PALayer) (x : Tensor) : Option Tensor :=
  (m.gate x).bind fun y => mulB x y

/-- Raw parameters of a `CALayer` (two 1x1 convolutions). -/
structure CALayerW where
  c1 : ConvW
  c2 : ConvW

/-- `CALayer(channel)`: channel attention; global average pooling to
(N, C, 1, 1), 1x1 conv channel -> channel // 8, ReLU, 1x1 conv
channel // 8 -> channel, Sigmoid, then elementwise (broadcast) product
with the input. -/
structure CALayer where
  conv1 : Conv2d
  conv2 : Conv2d

def CALayer.make (channel : ℕ) (w : CALayerW) : CALayer :=
  { conv1 := Conv2d.make channel (channel / 8) 1 0 w.c1
    conv2 := Conv2d.make (channel / 8) channel 1 0 w.c2 }

/-- The gate map `self.ca(self.avg_pool(x))` of a CALayer. -/
def CALayer.gate (m : CALayer) (x : Tensor) : Option Tensor :=
  (adaptiveAvgPool1 x).bind fun y0 =>
  (m.conv1.forward y0).bind fun y1 =>
  (m.conv2.forward (y1.map relu)).map fun y2 => y2.map sigmoid

def CALayer.forward (m : CALayer) (x : Tensor) : Option Tensor :=
  (m.gate x).bind fun y => mulB x y

/-- Raw parameters of the CALayer -> PALayer attention tail shared by the
Attentive* wrappers. -/
structure AttW where
  ca : CALayerW
  pa : PALayerW

/-- `AttentiveDown`: Down followed by CALayer(out) then PALayer(out). -/
structure AttentiveDown where
  down : Down
  ca : CALayer
  pa : PALayer

def AttentiveDown.make (in_channels out_channels : ℕ) (norm leaky : Bool)
    (w : DoubleConvW) (a : AttW) : AttentiveDown :=
  { down := Down.make in_channels out_channels norm leaky w
    ca := CALayer.make out_channels a.ca
    pa := PALayer.make out_channels a.pa }

def AttentiveDown.forward (m : AttentiveDown) (x : Tensor) : Option Tensor :=
  ((m.down.forward x).bind m.ca.forward).bind m.pa.forward

/-- `AttentiveUp`: Up followed by CALayer(out) then PALayer(out). -/
structure AttentiveUp where
  up : Up
  ca : CALayer
  pa : PALayer

def AttentiveUp.make (in_channels out_channels : ℕ) (bilinear norm leaky : Bool)
    (w : UpW) (a : AttW) : AttentiveUp :=
  { up := Up.make in_channels out_channels bilinear norm leaky w
    ca := CALayer.make out_channels a.ca
    pa := PALayer.make out_channels a.pa }

def AttentiveUp.forward (m : AttentiveUp) (x1 x2 : Tensor) : Option Tensor :=
  ((m.up.forward x1 x2).bind m.ca.forward).bind m.pa.forward

/-- `AttentiveDoubleConv`: DoubleConv followed by CALayer(out) then
PALayer(out). -/
structure AttentiveDoubleConv where
  conv : DoubleConv
  ca : CALayer
  pa : PALayer

def AttentiveDoubleConv.make (in_channels out_channels : ℕ) (norm leaky : Bool)
    (w : DoubleConvW) (a : AttW) : AttentiveDoubleConv :=
  { conv := DoubleConv.make in_channels out_channels norm leaky w
    ca := CALayer.make out_channels a.ca
    pa := PALayer.make out_channels a.pa }

def AttentiveDoubleConv.forward (m : AttentiveDoubleConv) (x : Tensor) : Option Tensor :=
  ((m.conv.forward x).bind m.ca.forward).bind m.pa.forward

/-- Raw parameters of a `BaseNet` (hence of IAN and ANSN). -/
structure BaseNetW where
  inc : DoubleConvW
  d1 : DoubleConvW
  d2 : DoubleConvW
  d3 : DoubleConvW
  u1 : UpW
  u2 : UpW
  u3 : UpW
  outc : ConvW

/-- `BaseNet(in_channels, out_channels, norm)`: the 4-level U-Net
inc = DoubleConv(in, 32), down1/2/3 = Down(32,64), Down(64,128),
Down(128,128), up1/2/3 = Up(256,64), Up(128,32), Up(64,32) (bilinear),
outc = OutConv(32, out) with the bounding activation. -/
structure BaseNet where
  inc : DoubleConv
  down1 : Down
  down2 : Down
  down3 : Down
  up1 : Up
  up2 : Up
  up3 : Up
  outc : OutConv

def BaseNet.make (in_channels out_channels : ℕ) (norm : Bool) (w : BaseNetW) : BaseNet :=
  { inc := DoubleConv.make in_channels 32 norm true w.inc
    down1 := Down.make 32 64 norm true w.d1
    down2 := Down.make 64 128 norm true w.d2
    down3 := Down.make 128 128 norm true w.d3
    up1 := Up.make 256 64 true norm true w.u1
    up2 := Up.make 128 32 true norm true w.u2
    up3 := Up.make 64 32 true norm true w.u3
    outc := OutConv.make 32 out_channels true w.outc }

def BaseNet.forward (m : BaseNet) (x : Tensor) : Option Tensor :=
  (m.inc.forward x).bind fun x1 =>
  (m.down1.forward x1).bind fun x2 =>
  (m.down2.forward x2).bind fun x3 =>
  (m.down3.forward x3).bind fun x4 =>
  (m.up1.forward x4 x3).bind fun y1 =>
  (m.up2.forward y1 x2).bind fun y2 =>
  (m.up3.forward y2 x1).bind fun y3 =>
  m.outc.forward y3

/-- The pre-activation head of a BaseNet: the whole forward pass up to
and including the final 3x3 convolution of `outc`, before its optional
activation. -/
def BaseNet.preOut (m : BaseNet) (x : Tensor) : Option Tensor :=
  (m.inc.forward x).bind fun x1 =>
  (m.down1.forward x1).bind fun x2 =>
  (m.down2.forward x2).bind fun x3 =>
  (m.down3.forward x3).bind fun x4 =>
  (m.up1.forward x4 x3).bind fun y1 =>
  (m.up2.forward y1 x2).bind fun y2 =>
  (m.up3.forward y2 x1).bind fun y3 =>
  m.outc.conv.forward y3

/-- `IAN`: BaseNet unchanged (bounded output). -/
def IAN.make (in_channels out_channels : ℕ) (norm : Bool) (w : BaseNetW) : BaseNet :=
  BaseNet.make in_channels out_channels norm w

/-- `ANSN`: BaseNet whose `outc` is rebuilt with the activation
disabled (`OutConv(32, out_channels, act=False)`). -/
def ANSN.make (in_channels out_channels : ℕ) (norm : Bool) (w : BaseNetW) : BaseNet :=
  { BaseNet.make in_channels out_channels norm w with
      outc := OutConv.make 32 out_channels false w.outc }

/-- Raw parameters of a `FuseNet`. -/
structure FuseNetW where
  inc : DoubleConvW
  incA : AttW
  d1 : DoubleConvW
  d1A : AttW
  d2 : DoubleConvW
  d2A : AttW
  u1 : UpW
  u1A : AttW
  u2 : UpW
  u2A : AttW
  outc : ConvW

/-- `FuseNet(in_channels, out_channels, norm)`: the 3-level attentive
U-Net inc = AttentiveDoubleConv(in, 32, leaky=False),
down1 = AttentiveDown(32, 64), down2 = AttentiveDown(64, 64),
up1 = AttentiveUp(128, 32), up2 = AttentiveUp(64, 32) (all leaky=False),
outc = OutConv(32, out) with the bounding activation. -/
structure FuseNet where
  inc : AttentiveDoubleConv
  down1 : AttentiveDown
  down2 : AttentiveDown
  up1 : AttentiveUp
  up2 : AttentiveUp
  outc : OutConv

def FuseNet.make (in_channels out_channels : ℕ) (norm : Bool) (w : FuseNetW) : FuseNet :=
  { inc := AttentiveDoubleConv.make in_channels 32 norm false w.inc w.incA
    down1 := AttentiveDown.make 32 64 norm false w.d1 w.d1A
    down2 := AttentiveDown.make 64 64 norm false w.d2 w.d2A
    up1 := AttentiveUp.make 128 32 true norm false w.u1 w.u1A
    up2 := AttentiveUp.make 64 32 true norm false w.u2 w.u2A
    outc := OutConv.make 32 out_channels true w.outc }

def FuseNet.forward (m : FuseNet) (x : Tensor) : Option Tensor :=
  (m.inc.forward x).bind fun x1 =>
  (m.down1.forward x1).bind fun x2 =>
  (m.down2.forward x2).bind fun x3 =>
  (m.up1.forward x3 x2).bind fun y1 =>
  (m.up2.forward y1 x1).bind fun y2 =>
  m.outc.forward y2

/-- The all-zero tensor of a given shape (concrete test input). -/
def zeros (n c h w : ℕ) : Tensor := ⟨n, c, h, w, fun _ _ _ _ => 0⟩

/-- All-zero convolution parameters (concrete test weights). -/
def zeroConvW : ConvW := ⟨fun _ _ _ _ => 0, fun _ => 0⟩

/-- Identity-like normalization parameters (concrete test weights). -/
def zeroBNW : BNW := ⟨fun _ => 1, fun _ => 0⟩

def zeroDoubleConvW : DoubleConvW := ⟨zeroConvW, zeroConvW, zeroBNW, zeroBNW⟩

def zeroUpW : UpW := ⟨zeroDoubleConvW, zeroConvW⟩

def zeroPALayerW : PALayerW := ⟨zeroConvW, zeroConvW⟩

def zeroCALayerW : CALayerW := ⟨zeroConvW, zeroConvW⟩

def zeroAttW : AttW := ⟨zeroCALayerW, zeroPALayerW⟩

def zeroBaseNetW : BaseNetW :=
  ⟨zeroDoubleConvW, zeroDoubleConvW, zeroDoubleConvW, zeroDoubleConvW,
    zeroUpW, zeroUpW, zeroUpW, zeroConvW⟩

def zeroFuseNetW : FuseNetW :=
  ⟨zeroDoubleConvW, zeroAttW, zeroDoubleConvW, zeroAttW, zeroDoubleConvW, zeroAttW,
    zeroUpW, zeroAttW, zeroUpW, zeroAttW, zeroConvW⟩

/-- Convolution parameters with zero weights and bias -1: a concrete
witness that an unbounded (linear) output can be negative. -/
def negBiasConvW : ConvW := ⟨fun _ _ _ _ => 0, fun _ => -1⟩

@[simp] theorem Tensor_map_batch (x : Tensor) (f : ℚ → ℚ) : (x.map f).batch = x.batch := rfl

@[simp] theorem Tensor_map_channels (x : Tensor) (f : ℚ → ℚ) : (x.map f).channels = x.channels := rfl

@[simp] theorem Tensor_map_height (x : Tensor) (f : ℚ → ℚ) : (x.map f).height = x.height := rfl

@[simp] theorem Tensor_map_width (x : Tensor) (f : ℚ → ℚ) : (x.map f).width = x.width := rfl

theorem abs_div_one_add_abs_lt_one (x : ℚ) : |x| / (1 + |x|) < 1 := by
  have h0 : (0 : ℚ) < 1 + |x| := by positivity
  rw [div_lt_one h0]
  linarith

theorem sigmoid_nonneg (x : ℚ) : 0 ≤ sigmoid x := by
  have h0 : (0 : ℚ) < 1 + |x| := by positivity
  have h1 : |x / (2 * (1 + |x|))| < 1 / 2 := by
    rw [abs_div, abs_of_pos (by positivity : (0:ℚ) < 2 * (1 + |x|))]
    rw [div_lt_iff₀ (by positivity)]
    have := abs_div_one_add_abs_lt_one x
    rw [div_lt_one h0] at this
    linarith
  have h2 := abs_lt.mp h1
  unfold sigmoid
  linarith [h2.1]

theorem sigmoid_le_one (x : ℚ) : sigmoid x ≤ 1 := by
  have h0 : (0 : ℚ) < 1 + |x| := by positivity
  have h1 : |x / (2 * (1 + |x|))| < 1 / 2 := by
    rw [abs_div, abs_of_pos (by positivity : (0:ℚ) < 2 * (1 + |x|))]
    rw [div_lt_iff₀ (by positivity)]
    have := abs_div_one_add_abs_lt_one x
    rw [div_lt_one h0] at this
    linarith
  have h2 := abs_lt.mp h1
  unfold sigmoid
  linarith [h2.2]

/-- Existence and shape of a bilinear x2 upsampling on a nonempty
spatial extent: both spatial sizes double. -/
theorem upsample2_shape (x : Tensor) (hH : 1 ≤ x.height) (hW : 1 ≤ x.width) :
    ∃ y, upsample2 x = some y ∧ y.batch = x.batch ∧ y.channels = x.channels
      ∧ y.height = 2 * x.height ∧ y.width = 2 * x.width := by
  unfold upsample2
  rw [if_pos ⟨hH, hW⟩]
  exact ⟨_, rfl, rfl, rfl, rfl, rfl⟩

/-- Bilinear x2 upsampling fails on an empty spatial extent. -/
theorem upsample2_none (x : Tensor) (h : ¬ (1 ≤ x.height ∧ 1 ≤ x.width)) :
    upsample2 x = none := by
  unfold upsample2
  rw [if_neg h]

theorem bcastDim_self (a : ℕ) : bcastDim a a = a := by
  unfold bcastDim
  split <;> omega

theorem bcastDim_one_right (a : ℕ) : bcastDim a 1 = a := by
  unfold bcastDim
  split <;> omega

@[simp] theorem Conv2d_make_inC (i o k p : ℕ) (w : ConvW) : (Conv2d.make i o k p w).inC = i := rfl

@[simp] theorem Conv2d_make_outC (i o k p : ℕ) (w : ConvW) : (Conv2d.make i o k p w).outC = o := rfl

@[simp] theorem Conv2d_make_k (i o k p : ℕ) (w : ConvW) : (Conv2d.make i o k p w).k = k := rfl

@[simp] theorem Conv2d_make_p (i o k p : ℕ) (w : ConvW) : (Conv2d.make i o k p w).p = p := rfl

@[simp] theorem DoubleConv_make_conv1 (i o : ℕ) (n l : Bool) (w : DoubleConvW) :
    (DoubleConv.make i o n l w).conv1 = Conv2d.make i o 3 1 w.c1 := rfl

@[simp] theorem DoubleConv_make_conv2 (i o : ℕ) (n l : Bool) (w : DoubleConvW) :
    (DoubleConv.make i o n l w).conv2 = Conv2d.make o o 3 1 w.c2 := rfl

@[simp] theorem DoubleConv_make_bn1 (i o : ℕ) (n l : Bool) (w : DoubleConvW) :
    (DoubleConv.make i o n l w).bn1 = ⟨o, w.n1.scale, w.n1.shift⟩ := rfl

@[simp] theorem DoubleConv_make_bn2 (i o : ℕ) (n l : Bool) (w : DoubleConvW) :
    (DoubleConv.make i o n l w).bn2 = ⟨o, w.n2.scale, w.n2.shift⟩ := rfl

@[simp] theorem DoubleConv_make_norm (i o : ℕ) (n l : Bool) (w : DoubleConvW) :
    (DoubleConv.make i o n l w).norm = n := rfl

@[simp] theorem DoubleConv_make_leaky (i o : ℕ) (n l : Bool) (w : DoubleConvW) :
    (DoubleConv.make i o n l w).leaky = l := rfl

/-- Existence and shape of the output of a convolution whose checks
pass. -/
theorem Conv2d_forward_shape (m : Conv2d) (x : Tensor)
    (h1 : x.channels = m.inC) (h2 : m.k ≤ x.height + 2 * m.p)
    (h3 : m.k ≤ x.width + 2 * m.p) :
    ∃ y, m.forward x = some y ∧ y.batch = x.batch ∧ y.channels = m.outC
      ∧ y.height = x.height + 2 * m.p + 1 - m.k
      ∧ y.width = x.width + 2 * m.p + 1 - m.k := by
  unfold Conv2d.forward
  rw [if_pos ⟨h1, h2, h3⟩]
  exact ⟨_, rfl, rfl, rfl, rfl, rfl⟩

/-- Existence and shape of a batch normalization whose channel check
passes. -/
theorem BatchNorm2d_forward_shape (m : BatchNorm2d) (x : Tensor)
    (h : x.channels = m.features) :
    ∃ y, m.forward x = some y ∧ y.batch = x.batch ∧ y.channels = x.channels
      ∧ y.height = x.height ∧ y.width = x.width := by
  unfold BatchNorm2d.forward
  rw [if_pos h]
  exact ⟨_, rfl, rfl, rfl, rfl, rfl⟩

/-- The optional normalization step of a DoubleConv preserves shape. -/
theorem normStep_shape (norm : Bool) (m : BatchNorm2d) (x : Tensor)
    (h : x.channels = m.features) :
    ∃ y, (if norm then m.forward x else some x) = some y ∧ y.batch = x.batch
      ∧ y.channels = x.channels ∧ y.height = x.height ∧ y.width = x.width := by
  cases norm
  · exact ⟨x, rfl, rfl, rfl, rfl, rfl⟩
  · simpa using BatchNorm2d_forward_shape m x h

/-- Existence and shape for `DoubleConv(inC, outC).forward`: any input
with matching channels and nonempty spatial extent yields an output of
the same spatial size with `outC` channels. -/
theorem DoubleConv_make_forward_shape (inC outC : ℕ) (norm leaky : Bool)
    (w : DoubleConvW) (x : Tensor) (hc : x.channels = inC)
    (hH : 1 ≤ x.height) (hW : 1 ≤ x.width) :
    ∃ y, (DoubleConv.make inC outC norm leaky w).forward x = some y
      ∧ y.batch = x.batch ∧ y.channels = outC ∧ y.height = x.height
      ∧ y.width = x.width := by
  obtain ⟨y1, e1, b1, c1, hh1, hw1⟩ :=
    Conv2d_forward_shape (Conv2d.make inC outC 3 1 w.c1) x (by simpa using hc)
      (by simp; omega) (by simp; omega)
  have c1x : y1.channels = outC := by simpa using c1
  have hh1x : y1.height = x.height := by simp at hh1; omega
  have hw1x : y1.width = x.width := by simp at hw1; omega
  obtain ⟨y2, e2, b2, c2, hh2, hw2⟩ :=
    normStep_shape norm ⟨outC, w.n1.scale, w.n1.shift⟩ y1 (by simpa using c1x)
  obtain ⟨y3, e3, b3, c3, hh3, hw3⟩ :=
    Conv2d_forward_shape (Conv2d.make outC outC 3 1 w.c2) (y2.map (dcAct leaky))
      (by simp [c2, c1x]) (by simp [hh2, hh1x]; omega) (by simp [hw2, hw1x]; omega)
  have c3x : y3.channels = outC := by simpa using c3
  have hh3x : y3.height = x.height := by simp [hh2, hh1x] at hh3; omega
  have hw3x : y3.width = x.width := by simp [hw2, hw1x] at hw3; omega
  obtain ⟨y4, e4, b4, c4, hh4, hw4⟩ :=
    normStep_shape norm ⟨outC, w.n2.scale, w.n2.shift⟩ y3 (by simpa using c3x)
  refine ⟨y4.map (dcAct leaky), ?_, ?_, ?_, ?_, ?_⟩
  · simp only [DoubleConv.forward, DoubleConv_make_conv1, DoubleConv_make_conv2,
      DoubleConv_make_bn1, DoubleConv_make_bn2, DoubleConv_make_norm, DoubleConv_make_leaky]
    rw [e1]
    rw [Option.some_bind]
    rw [e2]
    rw [Option.some_bind]
    rw [e3]
    rw [Option.some_bind]
    rw [e4]
    rfl
  · simp [b4, b3, b2, b1]
  · simp [c4, c3x]
  · simp [hh4, hh3x, hh2, hh1x]
  · simp [hw4, hw3x, hw2, hw1x]

theorem maxPool2_shape (x : Tensor) (hH : 2 ≤ x.height) (hW : 2 ≤ x.width) :
    ∃ y, maxPool2 x = some y ∧ y.batch = x.batch ∧ y.channels = x.channels
      ∧ y.height = x.height / 2 ∧ y.width = x.width / 2 := by
  unfold maxPool2
  rw [if_pos ⟨hH, hW⟩]
  exact ⟨_, rfl, rfl, rfl, rfl, rfl⟩

@[simp] theorem Down_make_conv (i o : ℕ) (n l : Bool) (w : DoubleConvW) :
    (Down.make i o n l w).conv = DoubleConv.make i o n l w := rfl

/-- Existence and shape for `Down(inC, outC).forward`: spatial sizes are
floor-halved, channels become `outC`; requires both spatial sizes at
least 2. -/
theorem Down_make_forward_shape (inC outC : ℕ) (norm leaky : Bool)
    (w : DoubleConvW) (x : Tensor) (hc : x.channels = inC)
    (hH : 2 ≤ x.height) (hW : 2 ≤ x.width) :
    ∃ y, (Down.make inC outC norm leaky w).forward x = some y
      ∧ y.batch = x.batch ∧ y.channels = outC ∧ y.height = x.height / 2
      ∧ y.width = x.width / 2 := by
  obtain ⟨p, ep, bp, cp, hp, wp⟩ := maxPool2_shape x hH hW
  obtain ⟨y, ey, by_, cy, hy, wy⟩ :=
    DoubleConv_make_forward_shape inC outC norm leaky w p (by omega)
      (by omega) (by omega)
  refine ⟨y, ?_, by omega, cy, by omega, by omega⟩
  simp only [Down.forward, Down_make_conv]
  rw [ep, Option.some_bind, ey]

@[simp] theorem Up_make_bilinear (i o : ℕ) (bl n l : Bool) (w : UpW) :
    (Up.make i o bl n l w).bilinear = bl := rfl

@[simp] theorem Up_make_upT (i o : ℕ) (bl n l : Bool) (w : UpW) :
    (Up.make i o bl n l w).upT = ⟨i, i / 2, w.upT.w, w.upT.b⟩ := rfl

@[simp] theorem Up_make_conv (i o : ℕ) (bl n l : Bool) (w : UpW) :
    (Up.make i o bl n l w).conv = DoubleConv.make i o n l w.conv := rfl

@[simp] theorem padF_batch (x : Tensor) (l r t b : ℤ) : (padF x l r t b).batch = x.batch := rfl

@[simp] theorem padF_channels (x : Tensor) (l r t b : ℤ) :
    (padF x l r t b).channels = x.channels := rfl

@[simp] theorem padF_height (x : Tensor) (l r t b : ℤ) :
    (padF x l r t b).height = ((x.height : ℤ) + t + b).toNat := rfl

@[simp] theorem padF_width (x : Tensor) (l r t b : ℤ) :
    (padF x l r t b).width = ((x.width : ℤ) + l + r).toNat := rfl

theorem cat2_shape (a b : Tensor) (hb : a.batch = b.batch)
    (hh : a.height = b.height) (hw : a.width = b.width) :
    ∃ y, cat2 a b = some y ∧ y.batch = a.batch
      ∧ y.channels = a.channels + b.channels ∧ y.height = a.height
      ∧ y.width = a.width := by
  unfold cat2
  rw [if_pos ⟨hb, hh, hw⟩]
  exact ⟨_, rfl, rfl, rfl, rfl, rfl⟩

/-- After the padding step of `Up.forward`, the upsampled tensor has
exactly the spatial extent of the skip tensor: the pad amounts add up to
the signed difference. -/
theorem up_padded_spatial (u x2 : Tensor) :
    (padF u (((x2.width : ℤ) - u.width).fdiv 2)
        (((x2.width : ℤ) - u.width) - ((x2.width : ℤ) - u.width).fdiv 2)
        (((x2.height : ℤ) - u.height).fdiv 2)
        (((x2.height : ℤ) - u.height) - ((x2.height : ℤ) - u.height).fdiv 2)).height
      = x2.height
    ∧ (padF u (((x2.width : ℤ) - u.width).fdiv 2)
        (((x2.width : ℤ) - u.width) - ((x2.width : ℤ) - u.width).fdiv 2)
        (((x2.height : ℤ) - u.height).fdiv 2)
        (((x2.height : ℤ) - u.height) - ((x2.height : ℤ) - u.height).fdiv 2)).width
      = x2.width := by
  constructor
  · rw [padF_height]
    have h : (u.height : ℤ) + ((x2.height : ℤ) - u.height).fdiv 2
        + (((x2.height : ℤ) - u.height) - ((x2.height : ℤ) - u.height).fdiv 2)
        = (x2.height : ℤ) := by ring
    rw [h, Int.toNat_natCast]
  · rw [padF_width]
    have h : (u.width : ℤ) + ((x2.width : ℤ) - u.width).fdiv 2
        + (((x2.width : ℤ) - u.width) - ((x2.width : ℤ) - u.width).fdiv 2)
        = (x2.width : ℤ) := by ring
    rw [h, Int.toNat_natCast]

/-- Existence and shape for bilinear `Up(inC, outC).forward(x1, x2)`:
for any lower-resolution tensor x1 with nonempty spatial extent and any
skip tensor x2 of the same batch whose channel counts sum to `inC`, the
output exists and has x2's spatial extent with `outC` channels (the
padding absorbs any spatial mismatch). -/
theorem Up_make_forward_shape (inC outC : ℕ) (norm leaky : Bool) (w : UpW)
    (x1 x2 : Tensor) (hb : x1.batch = x2.batch)
    (hc : x2.channels + x1.channels = inC)
    (h1H : 1 ≤ x1.height) (h1W : 1 ≤ x1.width)
    (hH : 1 ≤ x2.height) (hW : 1 ≤ x2.width) :
    ∃ y, (Up.make inC outC true norm leaky w).forward x1 x2 = some y
      ∧ y.batch = x2.batch ∧ y.channels = outC ∧ y.height = x2.height
      ∧ y.width = x2.width := by
  obtain ⟨u, eu, bu, cu, hu, wu⟩ := upsample2_shape x1 h1H h1W
  have hpad := up_padded_spatial u x2
  obtain ⟨c, ec, bc, cc, hc2, wc2⟩ :=
    cat2_shape x2
      (padF u (((x2.width : ℤ) - u.width).fdiv 2)
        (((x2.width : ℤ) - u.width) - ((x2.width : ℤ) - u.width).fdiv 2)
        (((x2.height : ℤ) - u.height).fdiv 2)
        (((x2.height : ℤ) - u.height) - ((x2.height : ℤ) - u.height).fdiv 2))
      (by simp [bu, hb]) (by rw [hpad.1]) (by rw [hpad.2])
  obtain ⟨y, ey, by_, cy, hy, wy⟩ :=
    DoubleConv_make_forward_shape inC outC norm leaky w.conv c
      (by simp [cu] at cc; omega) (by omega) (by omega)
  refine ⟨y, ?_, by omega, cy, by omega, by omega⟩
  simp only [Up.forward, Up_make_bilinear, Up_make_conv, if_true]
  rw [eu, Option.some_bind]
  rw [ec, Option.some_bind, ey]

@[simp] theorem Tensor_map_data (x : Tensor) (f : ℚ → ℚ) (n c i j : ℕ) :
    (x.map f).data n c i j = f (x.data n c i j) := rfl

/-- Broadcast product where the right operand's axes are each either of
size 1 or equal to the left operand's: the result exists and has the
left operand's shape. -/
theorem mulB_shape (x g : Tensor) (hb : g.batch = x.batch)
    (hch : g.channels = 1 ∨ g.channels = x.channels)
    (hh : g.height = 1 ∨ g.height = x.height)
    (hw : g.width = 1 ∨ g.width = x.width) :
    ∃ z, mulB x g = some z ∧ z.batch = x.batch ∧ z.channels = x.channels
      ∧ z.height = x.height ∧ z.width = x.width := by
  unfold mulB
  rw [if_pos]
  · refine ⟨_, rfl, ?_, ?_, ?_, ?_⟩
    · rw [hb, bcastDim_self]
    · rcases hch with h | h
      · rw [h, bcastDim_one_right]
      · rw [h, bcastDim_self]
    · rcases hh with h | h
      · rw [h, bcastDim_one_right]
      · rw [h, bcastDim_self]
    · rcases hw with h | h
      · rw [h, bcastDim_one_right]
      · rw [h, bcastDim_self]
  · refine ⟨Or.inl hb.symm, ?_, ?_, ?_⟩
    · rcases hch with h | h
      · exact Or.inr (Or.inr h)
      · exact Or.inl h.symm
    · rcases hh with h | h
      · exact Or.inr (Or.inr h)
      · exact Or.inl h.symm
    · rcases hw with h | h
      · exact Or.inr (Or.inr h)
      · exact Or.inl h.symm

@[simp] theorem PALayer_make_conv1 (c : ℕ) (w : PALayerW) :
    (PALayer.make c w).conv1 = Conv2d.make c (c / 8) 1 0 w.c1 := rfl

@[simp] theorem PALayer_make_conv2 (c : ℕ) (w : PALayerW) :
    (PALayer.make c w).conv2 = Conv2d.make (c / 8) 1 1 0 w.c2 := rfl

@[simp] theorem CALayer_make_conv1 (c : ℕ) (w : CALayerW) :
    (CALayer.make c w).conv1 = Conv2d.make c (c / 8) 1 0 w.c1 := rfl

@[simp] theorem CALayer_make_conv2 (c : ℕ) (w : CALayerW) :
    (CALayer.make c w).conv2 = Conv2d.make (c / 8) c 1 0 w.c2 := rfl

/-- The PALayer gate exists for any input of the declared channel count
with nonempty spatial extent; it is a single-channel map of the input's
spatial size, and all its entries lie in [0, 1] (they are outputs of the
bounding activation). -/
theorem PALayer_make_gate_shape (channel : ℕ) (w : PALayerW) (x : Tensor)
    (hc : x.channels = channel) (hH : 1 ≤ x.height) (hW : 1 ≤ x.width) :
    ∃ g, (PALayer.make channel w).gate x = some g ∧ g.batch = x.batch
      ∧ g.channels = 1 ∧ g.height = x.height ∧ g.width = x.width
      ∧ ∀ n c i j, 0 ≤ g.data n c i j ∧ g.data n c i j ≤ 1 := by
  obtain ⟨y1, e1, b1, c1, h1, w1⟩ :=
    Conv2d_forward_shape (Conv2d.make channel (channel / 8) 1 0 w.c1) x
      (by simpa using hc) (by simp; omega) (by simp; omega)
  obtain ⟨y2, e2, b2, c2, h2, w2⟩ :=
    Conv2d_forward_shape (Conv2d.make (channel / 8) 1 1 0 w.c2) (y1.map relu)
      (by simpa using c1) (by simp [h1]; omega) (by simp [w1]; omega)
  refine ⟨y2.map sigmoid, ?_, ?_, ?_, ?_, ?_, ?_⟩
  · simp only [PALayer.gate, PALayer_make_conv1, PALayer_make_conv2]
    rw [e1, Option.some_bind, e2]
    rfl
  · simp [b2, b1]
  · simpa using c2
  · simp at h1 h2
    simp [h2, h1]
  · simp at w1 w2
    simp [w2, w1]
  · intro n c i j
    rw [Tensor_map_data]
    exact ⟨sigmoid_nonneg _, sigmoid_le_one _⟩

theorem adaptiveAvgPool1_shape (x : Tensor) (hH : 1 ≤ x.height) (hW : 1 ≤ x.width) :
    ∃ y, adaptiveAvgPool1 x = some y ∧ y.batch = x.batch
      ∧ y.channels = x.channels ∧ y.height = 1 ∧ y.width = 1 := by
  unfold adaptiveAvgPool1
  rw [if_pos ⟨hH, hW⟩]
  exact ⟨_, rfl, rfl, rfl, rfl, rfl⟩

/-- The CALayer gate exists for any input of the declared channel count
with nonempty spatial extent; it is a per-channel (C x 1 x 1) map, and
all its entries lie in [0, 1]. -/
theorem CALayer_make_gate_shape (channel : ℕ) (w : CALayerW) (x : Tensor)
    (hc : x.channels = channel) (hH : 1 ≤ x.height) (hW : 1 ≤ x.width) :
    ∃ g, (CALayer.make channel w).gate x = some g ∧ g.batch = x.batch
      ∧ g.channels = channel ∧ g.height = 1 ∧ g.width = 1
      ∧ ∀ n c i j, 0 ≤ g.data n c i j ∧ g.data n c i j ≤ 1 := by
  obtain ⟨y0, e0, b0, c0, h0, w0⟩ := adaptiveAvgPool1_shape x hH hW
  obtain ⟨y1, e1, b1, c1, h1, w1⟩ :=
    Conv2d_forward_shape (Conv2d.make channel (channel / 8) 1 0 w.c1) y0
      (by simp [c0, hc]) (by simp [h0]) (by simp [w0])
  obtain ⟨y2, e2, b2, c2, h2, w2⟩ :=
    Conv2d_forward_shape (Conv2d.make (channel / 8) channel 1 0 w.c2) (y1.map relu)
      (by simpa using c1) (by simp [h1, h0]) (by simp [w1, w0])
  refine ⟨y2.map sigmoid, ?_, ?_, ?_, ?_, ?_, ?_⟩
  · simp only [CALayer.gate, CALayer_make_conv1, CALayer_make_conv2]
    rw [e0, Option.some_bind, e1, Option.some_bind, e2]
    rfl
  · simp [b2, b1, b0]
  · simpa using c2
  · simp at h1 h2
    simp [h2, h1, h0]
  · simp at w1 w2
    simp [w2, w1, w0]
  · intro n c i j
    rw [Tensor_map_data]
    exact ⟨sigmoid_nonneg _, sigmoid_le_one _⟩

/-- `PALayer.forward` preserves the input shape: the output is the
broadcast product of the input with the single-channel gate. -/
theorem PALayer_make_forward_shape (channel : ℕ) (w : PALayerW) (x : Tensor)
    (hc : x.channels = channel) (hH : 1 ≤ x.height) (hW : 1 ≤ x.width) :
    ∃ y, (PALayer.make channel w).forward x = some y ∧ y.batch = x.batch
      ∧ y.channels = x.channels ∧ y.height = x.height ∧ y.width = x.width := by
  obtain ⟨g, eg, bg, cg, hg, wg, _⟩ := PALayer_make_gate_shape channel w x hc hH hW
  obtain ⟨z, ez, bz, cz, hz, wz⟩ :=
    mulB_shape x g bg (Or.inl cg) (Or.inr hg) (Or.inr wg)
  refine ⟨z, ?_, bz, cz, hz, wz⟩
  simp only [PALayer.forward]
  rw [eg, Option.some_bind, ez]

/-- `CALayer.forward` preserves the input shape: the output is the
broadcast product of the input with the per-channel gate. -/
theorem CALayer_make_forward_shape (channel : ℕ) (w : CALayerW) (x : Tensor)
    (hc : x.channels = channel) (hH : 1 ≤ x.height) (hW : 1 ≤ x.width) :
    ∃ y, (CALayer.make channel w).forward x = some y ∧ y.batch = x.batch
      ∧ y.channels = x.channels ∧ y.height = x.height ∧ y.width = x.width := by
  obtain ⟨g, eg, bg, cg, hg, wg, _⟩ := CALayer_make_gate_shape channel w x hc hH hW
  obtain ⟨z, ez, bz, cz, hz, wz⟩ :=
    mulB_shape x g bg (Or.inr (by omega)) (Or.inl hg) (Or.inl wg)
  refine ⟨z, ?_, bz, cz, hz, wz⟩
  simp only [CALayer.forward]
  rw [eg, Option.some_bind, ez]

@[simp] theorem OutConv_make_conv (i o : ℕ) (a : Bool) (w : ConvW) :
    (OutConv.make i o a w).conv = Conv2d.make i o 3 1 w := rfl

@[simp] theorem OutConv_make_act (i o : ℕ) (a : Bool) (w : ConvW) :
    (OutConv.make i o a w).act = a := rfl

/-- `OutConv.forward` with the activation enabled: the output exists
(for matching channels and nonempty spatial extent), preserves spatial
size, and every entry lies in [0, 1]. -/
theorem OutConv_make_forward_act_shape (inC outC : ℕ) (w : ConvW) (x : Tensor)
    (hc : x.channels = inC) (hH : 1 ≤ x.height) (hW : 1 ≤ x.width) :
    ∃ y, (OutConv.make inC outC true w).forward x = some y ∧ y.batch = x.batch
      ∧ y.channels = outC ∧ y.height = x.height ∧ y.width = x.width
      ∧ ∀ n c i j, 0 ≤ y.data n c i j ∧ y.data n c i j ≤ 1 := by
  obtain ⟨y1, e1, b1, c1, h1, w1⟩ :=
    Conv2d_forward_shape (Conv2d.make inC outC 3 1 w) x (by simpa using hc)
      (by simp; omega) (by simp; omega)
  refine ⟨y1.map sigmoid, ?_, by simpa using b1, by simpa using c1, ?_, ?_, ?_⟩
  · simp only [OutConv.forward, OutConv_make_conv, OutConv_make_act]
    rw [e1]
    rfl
  · simp at h1
    simp [h1]
  · simp at w1
    simp [w1]
  · intro n c i j
    rw [Tensor_map_data]
    exact ⟨sigmoid_nonneg _, sigmoid_le_one _⟩

/-- `OutConv.forward` with the activation disabled is exactly the raw
convolution (no bounding). -/
theorem OutConv_make_forward_noact (inC outC : ℕ) (w : ConvW) (x : Tensor) :
    (OutConv.make inC outC false w).forward x
      = (Conv2d.make inC outC 3 1 w).forward x := by
  simp only [OutConv.forward, OutConv_make_conv, OutConv_make_act]
  cases h : (Conv2d.make inC outC 3 1 w).forward x <;> rfl

@[simp] theorem AttentiveDown_make_down (i o : ℕ) (n l : Bool) (w : DoubleConvW) (a : AttW) :
    (AttentiveDown.make i o n l w a).down = Down.make i o n l w := rfl

@[simp] theorem AttentiveDown_make_ca (i o : ℕ) (n l : Bool) (w : DoubleConvW) (a : AttW) :
    (AttentiveDown.make i o n l w a).ca = CALayer.make o a.ca := rfl

@[simp] theorem AttentiveDown_make_pa (i o : ℕ) (n l : Bool) (w : DoubleConvW) (a : AttW) :
    (AttentiveDown.make i o n l w a).pa = PALayer.make o a.pa := rfl

@[simp] theorem AttentiveUp_make_up (i o : ℕ) (bl n l : Bool) (w : UpW) (a : AttW) :
    (AttentiveUp.make i o bl n l w a).up = Up.make i o bl n l w := rfl

@[simp] theorem AttentiveUp_make_ca (i o : ℕ) (bl n l : Bool) (w : UpW) (a : AttW) :
    (AttentiveUp.make i o bl n l w a).ca = CALayer.make o a.ca := rfl

@[simp] theorem AttentiveUp_make_pa (i o : ℕ) (bl n l : Bool) (w : UpW) (a : AttW) :
    (AttentiveUp.make i o bl n l w a).pa = PALayer.make o a.pa := rfl

@[simp] theorem AttentiveDoubleConv_make_conv (i o : ℕ) (n l : Bool) (w : DoubleConvW) (a : AttW) :
    (AttentiveDoubleConv.make i o n l w a).conv = DoubleConv.make i o n l w := rfl

@[simp] theorem AttentiveDoubleConv_make_ca (i o : ℕ) (n l : Bool) (w : DoubleConvW) (a : AttW) :
    (AttentiveDoubleConv.make i o n l w a).ca = CALayer.make o a.ca := rfl

@[simp] theorem AttentiveDoubleConv_make_pa (i o : ℕ) (n l : Bool) (w : DoubleConvW) (a : AttW) :
    (AttentiveDoubleConv.make i o n l w a).pa = PALayer.make o a.pa := rfl

/-- Existence and shape for `AttentiveDown.forward`: as for Down, the
attention tail preserving the shape. -/
theorem AttentiveDown_make_forward_shape (inC outC : ℕ) (norm leaky : Bool)
    (w : DoubleConvW) (a : AttW) (x : Tensor) (hc : x.channels = inC)
    (hH : 2 ≤ x.height) (hW : 2 ≤ x.width) :
    ∃ y, (AttentiveDown.make inC outC norm leaky w a).forward x = some y
      ∧ y.batch = x.batch ∧ y.channels = outC ∧ y.height = x.height / 2
      ∧ y.width = x.width / 2 := by
  obtain ⟨d, ed, bd, cd, hd, wd⟩ := Down_make_forward_shape inC outC norm leaky w x hc hH hW
  obtain ⟨u, eu, bu, cu, hu, wu⟩ :=
    CALayer_make_forward_shape outC a.ca d cd (by omega) (by omega)
  obtain ⟨v, ev, bv, cv, hv, wv⟩ :=
    PALayer_make_forward_shape outC a.pa u (by omega) (by omega) (by omega)
  refine ⟨v, ?_, by omega, by omega, by omega, by omega⟩
  simp only [AttentiveDown.forward, AttentiveDown_make_down, AttentiveDown_make_ca,
    AttentiveDown_make_pa]
  rw [ed, Option.some_bind, eu, Option.some_bind, ev]

/-- Existence and shape for `AttentiveUp.forward` (bilinear): as for Up,
the attention tail preserving the shape. -/
theorem AttentiveUp_make_forward_shape (inC outC : ℕ) (norm leaky : Bool)
    (w : UpW) (a : AttW) (x1 x2 : Tensor) (hb : x1.batch = x2.batch)
    (hc : x2.channels + x1.channels = inC)
    (h1H : 1 ≤ x1.height) (h1W : 1 ≤ x1.width)
    (hH : 1 ≤ x2.height) (hW : 1 ≤ x2.width) :
    ∃ y, (AttentiveUp.make inC outC true norm leaky w a).forward x1 x2 = some y
      ∧ y.batch = x2.batch ∧ y.channels = outC ∧ y.height = x2.height
      ∧ y.width = x2.width := by
  obtain ⟨d, ed, bd, cd, hd, wd⟩ :=
    Up_make_forward_shape inC outC norm leaky w x1 x2 hb hc h1H h1W hH hW
  obtain ⟨u, eu, bu, cu, hu, wu⟩ :=
    CALayer_make_forward_shape outC a.ca d cd (by omega) (by omega)
  obtain ⟨v, ev, bv, cv, hv, wv⟩ :=
    PALayer_make_forward_shape outC a.pa u (by omega) (by omega) (by omega)
  refine ⟨v, ?_, by omega, by omega, by omega, by omega⟩
  simp only [AttentiveUp.forward, AttentiveUp_make_up, AttentiveUp_make_ca,
    AttentiveUp_make_pa]
  rw [ed, Option.some_bind, eu, Option.some_bind, ev]

/-- Existence and shape for `AttentiveDoubleConv.forward`. -/
theorem AttentiveDoubleConv_make_forward_shape (inC outC : ℕ) (norm leaky : Bool)
    (w : DoubleConvW) (a : AttW) (x : Tensor) (hc : x.channels = inC)
    (hH : 1 ≤ x.height) (hW : 1 ≤ x.width) :
    ∃ y, (AttentiveDoubleConv.make inC outC norm leaky w a).forward x = some y
      ∧ y.batch = x.batch ∧ y.channels = outC ∧ y.height = x.height
      ∧ y.width = x.width := by
  obtain ⟨d, ed, bd, cd, hd, wd⟩ :=
    DoubleConv_make_forward_shape inC outC norm leaky w x hc hH hW
  obtain ⟨u, eu, bu, cu, hu, wu⟩ :=
    CALayer_make_forward_shape outC a.ca d cd (by omega) (by omega)
  obtain ⟨v, ev, bv, cv, hv, wv⟩ :=
    PALayer_make_forward_shape outC a.pa u (by omega) (by omega) (by omega)
  refine ⟨v, ?_, by omega, by omega, by omega, by omega⟩
  simp only [AttentiveDoubleConv.forward, AttentiveDoubleConv_make_conv,
    AttentiveDoubleConv_make_ca, AttentiveDoubleConv_make_pa]
  rw [ed, Option.some_bind, eu, Option.some_bind, ev]

@[simp] theorem BaseNet_make_inc (i o : ℕ) (n : Bool) (w : BaseNetW) :
    (BaseNet.make i o n w).inc = DoubleConv.make i 32 n true w.inc := rfl

@[simp] theorem BaseNet_make_down1 (i o : ℕ) (n : Bool) (w : BaseNetW) :
    (BaseNet.make i o n w).down1 = Down.make 32 64 n true w.d1 := rfl

@[simp] theorem BaseNet_make_down2 (i o : ℕ) (n : Bool) (w : BaseNetW) :
    (BaseNet.make i o n w).down2 = Down.make 64 128 n true w.d2 := rfl

@[simp] theorem BaseNet_make_down3 (i o : ℕ) (n : Bool) (w : BaseNetW) :
    (BaseNet.make i o n w).down3 = Down.make 128 128 n true w.d3 := rfl

@[simp] theorem BaseNet_make_up1 (i o : ℕ) (n : Bool) (w : BaseNetW) :
    (BaseNet.make i o n w).up1 = Up.make 256 64 true n true w.u1 := rfl

@[simp] theorem BaseNet_make_up2 (i o : ℕ) (n : Bool) (w : BaseNetW) :
    (BaseNet.make i o n w).up2 = Up.make 128 32 true n true w.u2 := rfl

@[simp] theorem BaseNet_make_up3 (i o : ℕ) (n : Bool) (w : BaseNetW) :
    (BaseNet.make i o n w).up3 = Up.make 64 32 true n true w.u3 := rfl

@[simp] theorem BaseNet_make_outc (i o : ℕ) (n : Bool) (w : BaseNetW) :
    (BaseNet.make i o n w).outc = OutConv.make 32 o true w.outc := rfl

/-- General shape theorem for `BaseNet.forward`: any input with the
declared channel count and spatial sizes at least 8 (no divisibility
needed: the padding in Up absorbs misalignment) yields an output with
the input's batch and spatial sizes and `out_channels` channels, all of
whose entries lie in [0, 1]. -/
theorem BaseNet_make_forward_shape (inC outC : ℕ) (norm : Bool) (w : BaseNetW)
    (x : Tensor) (hc : x.channels = inC) (hH : 8 ≤ x.height) (hW : 8 ≤ x.width) :
    ∃ y, (BaseNet.make inC outC norm w).forward x = some y ∧ y.batch = x.batch
      ∧ y.channels = outC ∧ y.height = x.height ∧ y.width = x.width
      ∧ ∀ n c i j, 0 ≤ y.data n c i j ∧ y.data n c i j ≤ 1 := by
  obtain ⟨x1, e1, b1, c1, h1, w1⟩ :=
    DoubleConv_make_forward_shape inC 32 norm true w.inc x hc (by omega) (by omega)
  obtain ⟨x2, e2, b2, c2, h2, w2⟩ :=
    Down_make_forward_shape 32 64 norm true w.d1 x1 c1 (by omega) (by omega)
  obtain ⟨x3, e3, b3, c3, h3, w3⟩ :=
    Down_make_forward_shape 64 128 norm true w.d2 x2 c2 (by omega) (by omega)
  obtain ⟨x4, e4, b4, c4, h4, w4⟩ :=
    Down_make_forward_shape 128 128 norm true w.d3 x3 c3 (by omega) (by omega)
  obtain ⟨y1, f1, bb1, cc1, hh1, ww1⟩ :=
    Up_make_forward_shape 256 64 norm true w.u1 x4 x3 (by omega) (by omega)
      (by omega) (by omega) (by omega) (by omega)
  obtain ⟨y2, f2, bb2, cc2, hh2, ww2⟩ :=
    Up_make_forward_shape 128 32 norm true w.u2 y1 x2 (by omega) (by omega)
      (by omega) (by omega) (by omega) (by omega)
  obtain ⟨y3, f3, bb3, cc3, hh3, ww3⟩ :=
    Up_make_forward_shape 64 32 norm true w.u3 y2 x1 (by omega) (by omega)
      (by omega) (by omega) (by omega) (by omega)
  obtain ⟨z, fz, bz, cz, hz, wz, bnd⟩ :=
    OutConv_make_forward_act_shape 32 outC w.outc y3 cc3 (by omega) (by omega)
  refine ⟨z, ?_, by omega, by omega, by omega, by omega, bnd⟩
  simp only [BaseNet.forward, BaseNet_make_inc, BaseNet_make_down1, BaseNet_make_down2,
    BaseNet_make_down3, BaseNet_make_up1, BaseNet_make_up2, BaseNet_make_up3,
    BaseNet_make_outc]
  rw [e1, Option.some_bind, e2, Option.some_bind, e3, Option.some_bind, e4,
    Option.some_bind, f1, Option.some_bind, f2, Option.some_bind, f3,
    Option.some_bind, fz]

@[simp] theorem FuseNet_make_inc (i o : ℕ) (n : Bool) (w : FuseNetW) :
    (FuseNet.make i o n w).inc = AttentiveDoubleConv.make i 32 n false w.inc w.incA := rfl

@[simp] theorem FuseNet_make_down1 (i o : ℕ) (n : Bool) (w : FuseNetW) :
    (FuseNet.make i o n w).down1 = AttentiveDown.make 32 64 n false w.d1 w.d1A := rfl

@[simp] theorem FuseNet_make_down2 (i o : ℕ) (n : Bool) (w : FuseNetW) :
    (FuseNet.make i o n w).down2 = AttentiveDown.make 64 64 n false w.d2 w.d2A := rfl

@[simp] theorem FuseNet_make_up1 (i o : ℕ) (n : Bool) (w : FuseNetW) :
    (FuseNet.make i o n w).up1 = AttentiveUp.make 128 32 true n false w.u1 w.u1A := rfl

@[simp] theorem FuseNet_make_up2 (i o : ℕ) (n : Bool) (w : FuseNetW) :
    (FuseNet.make i o n w).up2 = AttentiveUp.make 64 32 true n false w.u2 w.u2A := rfl

@[simp] theorem FuseNet_make_outc (i o : ℕ) (n : Bool) (w : FuseNetW) :
    (FuseNet.make i o n w).outc = OutConv.make 32 o true w.outc := rfl

/-- General shape theorem for `FuseNet.forward`: any input with the
declared channel count and spatial sizes at least 4 yields an output
with the input's batch and spatial sizes and `out_channels` channels,
all of whose entries lie in [0, 1]. -/
theorem FuseNet_make_forward_shape (inC outC : ℕ) (norm : Bool) (w : FuseNetW)
    (x : Tensor) (hc : x.channels = inC) (hH : 4 ≤ x.height) (hW : 4 ≤ x.width) :
    ∃ y, (FuseNet.make inC outC norm w).forward x = some y ∧ y.batch = x.batch
      ∧ y.channels = outC ∧ y.height = x.height ∧ y.width = x.width
      ∧ ∀ n c i j, 0 ≤ y.data n c i j ∧ y.data n c i j ≤ 1 := by
  obtain ⟨x1, e1, b1, c1, h1, w1⟩ :=
    AttentiveDoubleConv_make_forward_shape inC 32 norm false w.inc w.incA x hc
      (by omega) (by omega)
  obtain ⟨x2, e2, b2, c2, h2, w2⟩ :=
    AttentiveDown_make_forward_shape 32 64 norm false w.d1 w.d1A x1 c1
      (by omega) (by omega)
  obtain ⟨x3, e3, b3, c3, h3, w3⟩ :=
    AttentiveDown_make_forward_shape 64 64 norm false w.d2 w.d2A x2 c2
      (by omega) (by omega)
  obtain ⟨y1, f1, bb1, cc1, hh1, ww1⟩ :=
    AttentiveUp_make_forward_shape 128 32 norm false w.u1 w.u1A x3 x2 (by omega)
      (by omega) (by omega) (by omega) (by omega) (by omega)
  obtain ⟨y2, f2, bb2, cc2, hh2, ww2⟩ :=
    AttentiveUp_make_forward_shape 64 32 norm false w.u2 w.u2A y1 x1 (by omega)
      (by omega) (by omega) (by omega) (by omega) (by omega)
  obtain ⟨z, fz, bz, cz, hz, wz, bnd⟩ :=
    OutConv_make_forward_act_shape 32 outC w.outc y2 cc2 (by omega) (by omega)
  refine ⟨z, ?_, by omega, by omega, by omega, by omega, bnd⟩
  simp only [FuseNet.forward, FuseNet_make_inc, FuseNet_make_down1, FuseNet_make_down2,
    FuseNet_make_up1, FuseNet_make_up2, FuseNet_make_outc]
  rw [e1, Option.some_bind, e2, Option.some_bind, e3, Option.some_bind, f1,
    Option.some_bind, f2, Option.some_bind, fz]

/-- Shape for `OutConv.forward` with the activation disabled (raw
convolution output, no bound). -/
theorem OutConv_make_forward_noact_shape (inC outC : ℕ) (w : ConvW) (x : Tensor)
    (hc : x.channels = inC) (hH : 1 ≤ x.height) (hW : 1 ≤ x.width) :
    ∃ y, (OutConv.make inC outC false w).forward x = some y ∧ y.batch = x.batch
      ∧ y.channels = outC ∧ y.height = x.height ∧ y.width = x.width := by
  obtain ⟨y1, e1, b1, c1, h1, w1⟩ :=
    Conv2d_forward_shape (Conv2d.make inC outC 3 1 w) x (by simpa using hc)
      (by simp; omega) (by simp; omega)
  refine ⟨y1, ?_, b1, by simpa using c1, ?_, ?_⟩
  · rw [OutConv_make_forward_noact, e1]
  · simp at h1
    omega
  · simp at w1
    omega

@[simp] theorem ANSN_make_inc (i o : ℕ) (n : Bool) (w : BaseNetW) :
    (ANSN.make i o n w).inc = DoubleConv.make i 32 n true w.inc := rfl

@[simp] theorem ANSN_make_down1 (i o : ℕ) (n : Bool) (w : BaseNetW) :
    (ANSN.make i o n w).down1 = Down.make 32 64 n true w.d1 := rfl

@[simp] theorem ANSN_make_down2 (i o : ℕ) (n : Bool) (w : BaseNetW) :
    (ANSN.make i o n w).down2 = Down.make 64 128 n true w.d2 := rfl

@[simp] theorem ANSN_make_down3 (i o : ℕ) (n : Bool) (w : BaseNetW) :
    (ANSN.make i o n w).down3 = Down.make 128 128 n true w.d3 := rfl

@[simp] theorem ANSN_make_up1 (i o : ℕ) (n : Bool) (w : BaseNetW) :
    (ANSN.make i o n w).up1 = Up.make 256 64 true n true w.u1 := rfl

@[simp] theorem ANSN_make_up2 (i o : ℕ) (n : Bool) (w : BaseNetW) :
    (ANSN.make i o n w).up2 = Up.make 128 32 true n true w.u2 := rfl

@[simp] theorem ANSN_make_up3 (i o : ℕ) (n : Bool) (w : BaseNetW) :
    (ANSN.make i o n w).up3 = Up.make 64 32 true n true w.u3 := rfl

@[simp] theorem ANSN_make_outc (i o : ℕ) (n : Bool) (w : BaseNetW) :
    (ANSN.make i o n w).outc = OutConv.make 32 o false w.outc := rfl

/-- General shape theorem for `ANSN.forward` (BaseNet with the final
activation disabled): same shape contract as BaseNet, without the
boundedness guarantee. -/
theorem ANSN_make_forward_shape (inC outC : ℕ) (norm : Bool) (w : BaseNetW)
    (x : Tensor) (hc : x.channels = inC) (hH : 8 ≤ x.height) (hW : 8 ≤ x.width) :
    ∃ y, (ANSN.make inC outC norm w).forward x = some y ∧ y.batch = x.batch
      ∧ y.channels = outC ∧ y.height = x.height ∧ y.width = x.width := by
  obtain ⟨x1, e1, b1, c1, h1, w1⟩ :=
    DoubleConv_make_forward_shape inC 32 norm true w.inc x hc (by omega) (by omega)
  obtain ⟨x2, e2, b2, c2, h2, w2⟩ :=
    Down_make_forward_shape 32 64 norm true w.d1 x1 c1 (by omega) (by omega)
  obtain ⟨x3, e3, b3, c3, h3, w3⟩ :=
    Down_make_forward_shape 64 128 norm true w.d2 x2 c2 (by omega) (by omega)
  obtain ⟨x4, e4, b4, c4, h4, w4⟩ :=
    Down_make_forward_shape 128 128 norm true w.d3 x3 c3 (by omega) (by omega)
  obtain ⟨y1, f1, bb1, cc1, hh1, ww1⟩ :=
    Up_make_forward_shape 256 64 norm true w.u1 x4 x3 (by omega) (by omega)
      (by omega) (by omega) (by omega) (by omega)
  obtain ⟨y2, f2, bb2, cc2, hh2, ww2⟩ :=
    Up_make_forward_shape 128 32 norm true w.u2 y1 x2 (by omega) (by omega)
      (by omega) (by omega) (by omega) (by omega)
  obtain ⟨y3, f3, bb3, cc3, hh3, ww3⟩ :=
    Up_make_forward_shape 64 32 norm true w.u3 y2 x1 (by omega) (by omega)
      (by omega) (by omega) (by omega) (by omega)
  obtain ⟨z, fz, bz, cz, hz, wz⟩ :=
    OutConv_make_forward_noact_shape 32 outC w.outc y3 cc3 (by omega) (by omega)
  refine ⟨z, ?_, by omega, by omega, by omega, by omega⟩
  simp only [BaseNet.forward, ANSN_make_inc, ANSN_make_down1, ANSN_make_down2,
    ANSN_make_down3, ANSN_make_up1, ANSN_make_up2, ANSN_make_up3, ANSN_make_outc]
  rw [e1, Option.some_bind, e2, Option.some_bind, e3, Option.some_bind, e4,
    Option.some_bind, f1, Option.some_bind, f2, Option.some_bind, f3,
    Option.some_bind, fz]

theorem ConvTranspose2d_forward_shape (m : ConvTranspose2d) (x : Tensor)
    (h : x.channels = m.inC) (hH : 1 ≤ x.height) (hW : 1 ≤ x.width) :
    ∃ y, m.forward x = some y ∧ y.batch = x.batch ∧ y.channels = m.outC
      ∧ y.height = 2 * x.height ∧ y.width = 2 * x.width := by
  unfold ConvTranspose2d.forward
  rw [if_pos ⟨h, hH, hW⟩]
  exact ⟨_, rfl, rfl, rfl, rfl, rfl⟩

/-- A transposed convolution fails on a channel mismatch or an empty
spatial extent. -/
theorem ConvTranspose2d_forward_none (m : ConvTranspose2d) (x : Tensor)
    (h : ¬ (x.channels = m.inC ∧ 1 ≤ x.height ∧ 1 ≤ x.width)) :
    m.forward x = none := by
  unfold ConvTranspose2d.forward
  rw [if_neg h]

/-- A convolution applied to a tensor with the wrong number of channels
fails. -/
theorem Conv2d_forward_none (m : Conv2d) (x : Tensor) (h : x.channels ≠ m.inC) :
    m.forward x = none := by
  unfold Conv2d.forward
  rw [if_neg]
  intro hcon
  exact h hcon.1

/-- A DoubleConv fed the wrong number of channels fails (at its first
convolution). -/
theorem DoubleConv_forward_none (m : DoubleConv) (x : Tensor)
    (h : x.channels ≠ m.conv1.inC) :
    m.forward x = none := by
  simp only [DoubleConv.forward]
  rw [Conv2d_forward_none m.conv1 x h]
  rfl

/-- Existence and shape for `Up` built with `bilinear=False`
(transposed convolution halving the channel count): succeeds when the
skip tensor contributes exactly the channels missing from
in_channels // 2 to in_channels. -/
theorem Up_make_forward_shape_convT (inC outC : ℕ) (norm leaky : Bool) (w : UpW)
    (x1 x2 : Tensor) (hb : x1.batch = x2.batch) (hc1 : x1.channels = inC)
    (hc : x2.channels + inC / 2 = inC) (h1H : 1 ≤ x1.height) (h1W : 1 ≤ x1.width)
    (hH : 1 ≤ x2.height) (hW : 1 ≤ x2.width) :
    ∃ y, (Up.make inC outC false norm leaky w).forward x1 x2 = some y
      ∧ y.batch = x2.batch ∧ y.channels = outC ∧ y.height = x2.height
      ∧ y.width = x2.width := by
  obtain ⟨u, eu, bu, cu, hu, wu⟩ :=
    ConvTranspose2d_forward_shape ⟨inC, inC / 2, w.upT.w, w.upT.b⟩ x1 hc1 h1H h1W
  have hpad := up_padded_spatial u x2
  obtain ⟨c, ec, bc, cc, hc2, wc2⟩ :=
    cat2_shape x2
      (padF u (((x2.width : ℤ) - u.width).fdiv 2)
        (((x2.width : ℤ) - u.width) - ((x2.width : ℤ) - u.width).fdiv 2)
        (((x2.height : ℤ) - u.height).fdiv 2)
        (((x2.height : ℤ) - u.height) - ((x2.height : ℤ) - u.height).fdiv 2))
      (by simp [bu, hb]) (by rw [hpad.1]) (by rw [hpad.2])
  obtain ⟨y, ey, by_, cy, hy, wy⟩ :=
    DoubleConv_make_forward_shape inC outC norm leaky w.conv c
      (by simp [cu] at cc; omega) (by omega) (by omega)
  refine ⟨y, ?_, by omega, cy, by omega, by omega⟩
  simp only [Up.forward, Up_make_bilinear, Up_make_conv, Up_make_upT,
    Bool.false_eq_true, if_false]
  rw [eu, Option.some_bind]
  rw [ec, Option.some_bind, ey]

/-- `Up` built with `bilinear=False` fails whenever the skip tensor's
channel count is not in_channels - in_channels // 2 (at the DoubleConv
when the upsampling itself went through, at the transposed convolution
when x1's spatial extent is empty). -/
theorem Up_make_forward_none_convT (inC outC : ℕ) (norm leaky : Bool) (w : UpW)
    (x1 x2 : Tensor) (hb : x1.batch = x2.batch) (hc1 : x1.channels = inC)
    (hc : x2.channels + inC / 2 ≠ inC) :
    (Up.make inC outC false norm leaky w).forward x1 x2 = none := by
  by_cases hpos : 1 ≤ x1.height ∧ 1 ≤ x1.width
  · obtain ⟨u, eu, bu, cu, hu, wu⟩ :=
      ConvTranspose2d_forward_shape ⟨inC, inC / 2, w.upT.w, w.upT.b⟩ x1 hc1
        hpos.1 hpos.2
    have hpad := up_padded_spatial u x2
    obtain ⟨c, ec, bc, cc, hc2, wc2⟩ :=
      cat2_shape x2
        (padF u (((x2.width : ℤ) - u.width).fdiv 2)
          (((x2.width : ℤ) - u.width) - ((x2.width : ℤ) - u.width).fdiv 2)
          (((x2.height : ℤ) - u.height).fdiv 2)
          (((x2.height : ℤ) - u.height) - ((x2.height : ℤ) - u.height).fdiv 2))
        (by simp [bu, hb]) (by rw [hpad.1]) (by rw [hpad.2])
    simp only [Up.forward, Up_make_bilinear, Up_make_conv, Up_make_upT,
      Bool.false_eq_true, if_false]
    rw [eu, Option.some_bind]
    rw [ec, Option.some_bind]
    apply DoubleConv_forward_none
    simp [cu] at cc
    simp [cc]
    omega
  · have eu : (⟨inC, inC / 2, w.upT.w, w.upT.b⟩ : ConvTranspose2d).forward x1 = none := by
      apply ConvTranspose2d_forward_none
      intro hcon
      exact hpos ⟨hcon.2.1, hcon.2.2⟩
    simp only [Up.forward, Up_make_bilinear, Up_make_conv, Up_make_upT,
      Bool.false_eq_true, if_false]
    rw [eu]
    rfl

/-- Bilinear `Up` fails whenever the two inputs' channel counts do not
sum to in_channels (at the DoubleConv when the upsampling itself went
through, at the upsampling when x1's spatial extent is empty). -/
theorem Up_make_forward_none (inC outC : ℕ) (norm leaky : Bool) (w : UpW)
    (x1 x2 : Tensor) (hb : x1.batch = x2.batch)
    (hc : x2.channels + x1.channels ≠ inC) :
    (Up.make inC outC true norm leaky w).forward x1 x2 = none := by
  by_cases hpos : 1 ≤ x1.height ∧ 1 ≤ x1.width
  · obtain ⟨u, eu, bu, cu, hu, wu⟩ := upsample2_shape x1 hpos.1 hpos.2
    have hpad := up_padded_spatial u x2
    obtain ⟨c, ec, bc, cc, hc2, wc2⟩ :=
      cat2_shape x2
        (padF u (((x2.width : ℤ) - u.width).fdiv 2)
          (((x2.width : ℤ) - u.width) - ((x2.width : ℤ) - u.width).fdiv 2)
          (((x2.height : ℤ) - u.height).fdiv 2)
          (((x2.height : ℤ) - u.height) - ((x2.height : ℤ) - u.height).fdiv 2))
        (by simp [bu, hb]) (by rw [hpad.1]) (by rw [hpad.2])
    simp only [Up.forward, Up_make_bilinear, Up_make_conv, if_true]
    rw [eu, Option.some_bind]
    rw [ec, Option.some_bind]
    apply DoubleConv_forward_none
    simp [cu] at cc
    simp [cc]
    omega
  · simp only [Up.forward, Up_make_bilinear, Up_make_conv, if_true]
    rw [upsample2_none x1 hpos]
    rfl

/-- Claim C1: for every input tensor of shape (N, Cin, H, W) with H and
W (positive and) divisible by 8, the forward pass of BaseNet, IAN and
ANSN returns a tensor of shape (N, Cout, H, W); for FuseNet, for every
input with H and W (positive and) divisible by 4, the forward pass
returns a tensor of shape (N, Cout, H, W): output spatial dimensions
equal input spatial dimensions. -/
theorem claim_C1_dense_output_shape (inC outC : ℕ) (norm normF : Bool)
    (wB : BaseNetW) (wF : FuseNetW) (x y : Tensor) (a b c d : ℕ)
    (hxc : x.channels = inC) (hxh : x.height = 8 * a) (hxw : x.width = 8 * b)
    (ha : 1 ≤ a) (hb : 1 ≤ b)
    (hyc : y.channels = inC) (hyh : y.height = 4 * c) (hyw : y.width = 4 * d)
    (hc : 1 ≤ c) (hd : 1 ≤ d) :
    (∃ z, (BaseNet.make inC outC norm wB).forward x = some z
        ∧ z.shape = (x.batch, outC, x.height, x.width))
    ∧ (∃ z, (IAN.make inC outC norm wB).forward x = some z
        ∧ z.shape = (x.batch, outC, x.height, x.width))
    ∧ (∃ z, (ANSN.make inC outC norm wB).forward x = some z
        ∧ z.shape = (x.batch, outC, x.height, x.width))
    ∧ (∃ z, (FuseNet.make inC outC normF wF).forward y = some z
        ∧ z.shape = (y.batch, outC, y.height, y.width)) := by
  obtain ⟨z1, e1, b1, c1, h1, w1, _⟩ :=
    BaseNet_make_forward_shape inC outC norm wB x hxc (by omega) (by omega)
  obtain ⟨z2, e2, b2, c2, h2, w2⟩ :=
    ANSN_make_forward_shape inC outC norm wB x hxc (by omega) (by omega)
  obtain ⟨z3, e3, b3, c3, h3, w3, _⟩ :=
    FuseNet_make_forward_shape inC outC normF wF y hyc (by omega) (by omega)
  refine ⟨⟨z1, e1, ?_⟩, ⟨z1, e1, ?_⟩, ⟨z2, e2, ?_⟩, ⟨z3, e3, ?_⟩⟩
  · simp [Tensor.shape, b1, c1, h1, w1]
  · simp [Tensor.shape, b1, c1, h1, w1]
  · simp [Tensor.shape, b2, c2, h2, w2]
  · simp [Tensor.shape, b3, c3, h3, w3]

theorem claim_C1_dense_output_shape_witness :
    (zeros 2 1 8 16).channels = 1
    ∧ ((∃ z, (BaseNet.make 1 1 true zeroBaseNetW).forward (zeros 2 1 8 16) = some z
          ∧ z.shape = (2, 1, 8, 16))
      ∧ (∃ z, (IAN.make 1 1 true zeroBaseNetW).forward (zeros 2 1 8 16) = some z
          ∧ z.shape = (2, 1, 8, 16))
      ∧ (∃ z, (ANSN.make 1 1 true zeroBaseNetW).forward (zeros 2 1 8 16) = some z
          ∧ z.shape = (2, 1, 8, 16))
      ∧ (∃ z, (FuseNet.make 1 1 false zeroFuseNetW).forward (zeros 2 1 4 12) = some z
          ∧ z.shape = (2, 1, 4, 12))) :=
  ⟨rfl, claim_C1_dense_output_shape 1 1 true false zeroBaseNetW zeroFuseNetW
    (zeros 2 1 8 16) (zeros 2 1 4 12) 1 2 1 3 rfl rfl rfl (by decide) (by decide)
    rfl rfl rfl (by decide) (by decide)⟩

/-- Claim C3: `Up.forward(x1, x2)` (bilinear) upsamples x1 by factor 2,
pads it with the height/width difference split as floor(diff/2) leading
and the remainder trailing so that its spatial size exactly equals x2's,
concatenates [x2, x1] along the channel axis and applies DoubleConv; the
output's spatial size equals x2's spatial size, including when x2 has
odd spatial dimensions (x1 being the floor-halved resolution).  Both
inputs are required to have nonempty spatial extents — valid tensors;
the framework's upsampling rejects an empty input. -/
theorem claim_C3_up_skip_alignment (inC outC : ℕ) (norm leaky : Bool) (w : UpW)
    (x1 x2 : Tensor) (hb : x1.batch = x2.batch)
    (hch : x2.channels + x1.channels = inC)
    (hh : x1.height = x2.height / 2) (hw : x1.width = x2.width / 2)
    (h1H : 1 ≤ x1.height) (h1W : 1 ≤ x1.width)
    (hH : 1 ≤ x2.height) (hW : 1 ≤ x2.width) :
    (∃ u, upsample2 x1 = some u
      ∧ u.height = 2 * x1.height ∧ u.width = 2 * x1.width
      ∧ (padF u (((x2.width : ℤ) - u.width).fdiv 2)
          (((x2.width : ℤ) - u.width) - ((x2.width : ℤ) - u.width).fdiv 2)
          (((x2.height : ℤ) - u.height).fdiv 2)
          (((x2.height : ℤ) - u.height)
            - ((x2.height : ℤ) - u.height).fdiv 2)).height = x2.height
      ∧ (padF u (((x2.width : ℤ) - u.width).fdiv 2)
          (((x2.width : ℤ) - u.width) - ((x2.width : ℤ) - u.width).fdiv 2)
          (((x2.height : ℤ) - u.height).fdiv 2)
          (((x2.height : ℤ) - u.height)
            - ((x2.height : ℤ) - u.height).fdiv 2)).width = x2.width)
    ∧ ∃ z, (Up.make inC outC true norm leaky w).forward x1 x2 = some z
      ∧ z.batch = x2.batch ∧ z.channels = outC ∧ z.height = x2.height
      ∧ z.width = x2.width := by
  obtain ⟨u, eu, bu, cu, hu, wu⟩ := upsample2_shape x1 h1H h1W
  have hpad := up_padded_spatial u x2
  refine ⟨⟨u, eu, hu, wu, hpad.1, hpad.2⟩, ?_⟩
  exact Up_make_forward_shape inC outC norm leaky w x1 x2 hb hch h1H h1W hH hW

theorem claim_C3_up_skip_alignment_witness :
    (zeros 1 32 3 3).height = (zeros 1 32 7 7).height / 2
    ∧ ∃ z, (Up.make 64 32 true true true zeroUpW).forward
        (zeros 1 32 3 3) (zeros 1 32 7 7) = some z
      ∧ z.batch = 1 ∧ z.channels = 32 ∧ z.height = 7 ∧ z.width = 7 :=
  ⟨rfl, (claim_C3_up_skip_alignment 64 32 true true zeroUpW
    (zeros 1 32 3 3) (zeros 1 32 7 7) rfl rfl rfl rfl (by decide) (by decide)
    (by decide) (by decide)).2⟩

/-- Claim C2: PALayer.forward and CALayer.forward preserve the input
shape exactly, and the output equals the input multiplied elementwise
(with broadcasting) by a gate whose values all lie in [0, 1]; PALayer's
gate is a single-channel (1 x H x W) map produced by the
C -> C/8 -> 1 pipeline of 1x1 convolutions with a rectifier between and
the bounding activation at the end, CALayer's gate is a per-channel
(C x 1 x 1) map produced from the global spatial average by the
C -> C/8 -> C pipeline. -/
theorem claim_C2_attention_gate (channel : ℕ) (wp : PALayerW) (wc : CALayerW)
    (x : Tensor) (hc : x.channels = channel) (hH : 1 ≤ x.height) (hW : 1 ≤ x.width) :
    (∃ g z, (PALayer.make channel wp).gate x = some g
      ∧ mulB x g = some z
      ∧ (PALayer.make channel wp).forward x = some z
      ∧ z.shape = x.shape
      ∧ g.batch = x.batch ∧ g.channels = 1 ∧ g.height = x.height ∧ g.width = x.width
      ∧ ∀ n c i j, 0 ≤ g.data n c i j ∧ g.data n c i j ≤ 1)
    ∧ (∃ g z, (CALayer.make channel wc).gate x = some g
      ∧ mulB x g = some z
      ∧ (CALayer.make channel wc).forward x = some z
      ∧ z.shape = x.shape
      ∧ g.batch = x.batch ∧ g.channels = channel ∧ g.height = 1 ∧ g.width = 1
      ∧ ∀ n c i j, 0 ≤ g.data n c i j ∧ g.data n c i j ≤ 1) := by
  constructor
  · obtain ⟨g, eg, bg, cg, hg, wg, bnd⟩ := PALayer_make_gate_shape channel wp x hc hH hW
    obtain ⟨z, ez, bz, cz, hz, wz⟩ :=
      mulB_shape x g bg (Or.inl cg) (Or.inr hg) (Or.inr wg)
    refine ⟨g, z, eg, ez, ?_, ?_, bg, cg, hg, wg, bnd⟩
    · simp only [PALayer.forward]
      rw [eg, Option.some_bind, ez]
    · simp [Tensor.shape, bz, cz, hz, wz]
  · obtain ⟨g, eg, bg, cg, hg, wg, bnd⟩ := CALayer_make_gate_shape channel wc x hc hH hW
    obtain ⟨z, ez, bz, cz, hz, wz⟩ :=
      mulB_shape x g bg (Or.inr (by omega)) (Or.inl hg) (Or.inl wg)
    refine ⟨g, z, eg, ez, ?_, ?_, bg, cg, hg, wg, bnd⟩
    · simp only [CALayer.forward]
      rw [eg, Option.some_bind, ez]
    · simp [Tensor.shape, bz, cz, hz, wz]

theorem claim_C2_attention_gate_witness :
    (zeros 1 16 2 3).channels = 16
    ∧ ((∃ g z, (PALayer.make 16 zeroPALayerW).gate (zeros 1 16 2 3) = some g
      ∧ mulB (zeros 1 16 2 3) g = some z
      ∧ (PALayer.make 16 zeroPALayerW).forward (zeros 1 16 2 3) = some z
      ∧ z.shape = (zeros 1 16 2 3).shape
      ∧ g.batch = 1 ∧ g.channels = 1 ∧ g.height = 2 ∧ g.width = 3
      ∧ ∀ n c i j, 0 ≤ g.data n c i j ∧ g.data n c i j ≤ 1)
    ∧ (∃ g z, (CALayer.make 16 zeroCALayerW).gate (zeros 1 16 2 3) = some g
      ∧ mulB (zeros 1 16 2 3) g = some z
      ∧ (CALayer.make 16 zeroCALayerW).forward (zeros 1 16 2 3) = some z
      ∧ z.shape = (zeros 1 16 2 3).shape
      ∧ g.batch = 1 ∧ g.channels = 16 ∧ g.height = 1 ∧ g.width = 1
      ∧ ∀ n c i j, 0 ≤ g.data n c i j ∧ g.data n c i j ≤ 1)) :=
  ⟨rfl, claim_C2_attention_gate 16 zeroPALayerW zeroCALayerW (zeros 1 16 2 3)
    rfl (by decide) (by decide)⟩

/-- Claim C5: OutConv with the bounding activation enabled returns a
tensor all of whose values lie in [0, 1]; with it disabled it returns
the raw linear output of the single 3x3 padding-1 convolution, which
can be negative for some input and weights (concretely: zero weights
with bias -1 on a zero input give the value -1). -/
theorem claim_C5_outconv_range (inC outC : ℕ) (w : ConvW) (x : Tensor)
    (hc : x.channels = inC) (hH : 1 ≤ x.height) (hW : 1 ≤ x.width) :
    (∃ y, (OutConv.make inC outC true w).forward x = some y
      ∧ y.batch = x.batch ∧ y.channels = outC ∧ y.height = x.height
      ∧ y.width = x.width
      ∧ ∀ n c i j, 0 ≤ y.data n c i j ∧ y.data n c i j ≤ 1)
    ∧ ((OutConv.make inC outC false w).forward x
        = (Conv2d.make inC outC 3 1 w).forward x)
    ∧ (∃ y, (OutConv.make 1 1 false negBiasConvW).forward (zeros 1 1 1 1) = some y
        ∧ y.data 0 0 0 0 < 0) := by
  refine ⟨OutConv_make_forward_act_shape inC outC w x hc hH hW,
    OutConv_make_forward_noact inC outC w x, ?_⟩
  obtain ⟨y, ey, b1, c1, h1, w1⟩ :=
    OutConv_make_forward_noact_shape 1 1 negBiasConvW (zeros 1 1 1 1) rfl
      (by decide) (by decide)
  refine ⟨y, ey, ?_⟩
  rw [OutConv_make_forward_noact] at ey
  unfold Conv2d.forward at ey
  rw [if_pos (by refine ⟨rfl, by decide, by decide⟩)] at ey
  have hy := Option.some_injective _ ey.symm
  rw [hy]
  simp [negBiasConvW, Conv2d.make]

theorem claim_C5_outconv_range_witness :
    (zeros 1 3 2 2).channels = 3
    ∧ ((∃ y, (OutConv.make 3 1 true zeroConvW).forward (zeros 1 3 2 2) = some y
      ∧ y.batch = 1 ∧ y.channels = 1 ∧ y.height = 2 ∧ y.width = 2
      ∧ ∀ n c i j, 0 ≤ y.data n c i j ∧ y.data n c i j ≤ 1)
    ∧ ((OutConv.make 3 1 false zeroConvW).forward (zeros 1 3 2 2)
        = (Conv2d.make 3 1 3 1 zeroConvW).forward (zeros 1 3 2 2))
    ∧ (∃ y, (OutConv.make 1 1 false negBiasConvW).forward (zeros 1 1 1 1) = some y
        ∧ y.data 0 0 0 0 < 0)) :=
  ⟨rfl, claim_C5_outconv_range 3 1 zeroConvW (zeros 1 3 2 2) rfl
    (by decide) (by decide)⟩

/-- Pulling a pure map out of an Option bind. -/
theorem bind_map_right (o : Option Tensor) (f : Tensor → Option Tensor)
    (g : Tensor → Tensor) :
    (o.bind fun a => (f a).map g) = (o.bind f).map g := by
  cases o <;> rfl

/-- Any BaseNet forward factors as the pre-activation head followed by
the output activation selected by `outc.act`. -/
theorem BaseNet_forward_eq_map_preOut (m : BaseNet) (x : Tensor) :
    m.forward x = (m.preOut x).map (fun y => if m.outc.act then y.map sigmoid else y) := by
  unfold BaseNet.forward BaseNet.preOut OutConv.forward
  simp only [bind_map_right]

/-- Claim C4: with identical construction parameters and identical
weights, IAN and ANSN have identical pre-activation outputs (the result
of the final 3x3 convolution); IAN applies the bounding activation to it
while ANSN returns it unchanged; every other layer of the two networks
is identical, the final convolution included — only the output
activation flag differs. -/
theorem claim_C4_ian_ansn_difference (inC outC : ℕ) (norm : Bool) (w : BaseNetW)
    (x : Tensor) :
    (IAN.make inC outC norm w).preOut x = (ANSN.make inC outC norm w).preOut x
    ∧ (IAN.make inC outC norm w).forward x
        = ((IAN.make inC outC norm w).preOut x).map (fun y => y.map sigmoid)
    ∧ (ANSN.make inC outC norm w).forward x = (ANSN.make inC outC norm w).preOut x
    ∧ (IAN.make inC outC norm w).inc = (ANSN.make inC outC norm w).inc
    ∧ (IAN.make inC outC norm w).down1 = (ANSN.make inC outC norm w).down1
    ∧ (IAN.make inC outC norm w).down2 = (ANSN.make inC outC norm w).down2
    ∧ (IAN.make inC outC norm w).down3 = (ANSN.make inC outC norm w).down3
    ∧ (IAN.make inC outC norm w).up1 = (ANSN.make inC outC norm w).up1
    ∧ (IAN.make inC outC norm w).up2 = (ANSN.make inC outC norm w).up2
    ∧ (IAN.make inC outC norm w).up3 = (ANSN.make inC outC norm w).up3
    ∧ (IAN.make inC outC norm w).outc.conv = (ANSN.make inC outC norm w).outc.conv
    ∧ (IAN.make inC outC norm w).outc.act = true
    ∧ (ANSN.make inC outC norm w).outc.act = false := by
  refine ⟨rfl, ?_, ?_, rfl, rfl, rfl, rfl, rfl, rfl, rfl, rfl, rfl, rfl⟩
  · rw [BaseNet_forward_eq_map_preOut]
    rfl
  · rw [BaseNet_forward_eq_map_preOut]
    have : (fun y : Tensor => if (ANSN.make inC outC norm w).outc.act then y.map sigmoid else y)
        = fun y => y := by
      funext y
      rfl
    rw [this]
    cases (ANSN.make inC outC norm w).preOut x <;> rfl

/-- Claim C6: each Attentive wrapper equals its base operation followed
by the CALayer and then the PALayer built on the output channel count —
channel attention first, then pixel attention, with no other behavioral
difference. -/
theorem claim_C6_attentive_wrappers (inC outC : ℕ) (bl norm leaky : Bool)
    (wd : DoubleConvW) (wu : UpW) (a : AttW) (x x1 x2 : Tensor) :
    (AttentiveDown.make inC outC norm leaky wd a).forward x
      = (((Down.make inC outC norm leaky wd).forward x).bind
          (CALayer.make outC a.ca).forward).bind (PALayer.make outC a.pa).forward
    ∧ (AttentiveUp.make inC outC bl norm leaky wu a).forward x1 x2
      = (((Up.make inC outC bl norm leaky wu).forward x1 x2).bind
          (CALayer.make outC a.ca).forward).bind (PALayer.make outC a.pa).forward
    ∧ (AttentiveDoubleConv.make inC outC norm leaky wd a).forward x
      = (((DoubleConv.make inC outC norm leaky wd).forward x).bind
          (CALayer.make outC a.ca).forward).bind (PALayer.make outC a.pa).forward :=
  ⟨rfl, rfl, rfl⟩

/-- Claim C8: the forward pass is a deterministic, pure function of the
module (its layers and weights) and the input alone: two runs on equal
modules and equal inputs produce equal outputs.  The embedding of the
forward pass takes no other argument — in particular there is no random
source (no dropout layer exists in any of the networks). -/
theorem claim_C8_forward_deterministic (m1 m2 : BaseNet) (f1 f2 : FuseNet)
    (x1 x2 y1 y2 : Tensor) (hm : m1 = m2) (hf : f1 = f2) (hx : x1 = x2)
    (hy : y1 = y2) :
    m1.forward x1 = m2.forward x2 ∧ f1.forward y1 = f2.forward y2 := by
  subst hm
  subst hf
  subst hx
  subst hy
  exact ⟨rfl, rfl⟩

theorem claim_C8_forward_deterministic_witness :
    (BaseNet.make 1 1 true zeroBaseNetW).forward (zeros 1 1 8 8)
      = (BaseNet.make 1 1 true zeroBaseNetW).forward (zeros 1 1 8 8)
    ∧ (FuseNet.make 1 1 false zeroFuseNetW).forward (zeros 1 1 4 4)
      = (FuseNet.make 1 1 false zeroFuseNetW).forward (zeros 1 1 4 4) :=
  claim_C8_forward_deterministic _ _ _ _ _ _ _ _ rfl rfl rfl rfl

/-- Claim C9 counterexample: at channel = 4 (< 8) the hidden 1x1
convolution of both attention layers is indeed declared with
4 // 8 = 0 channels, but the forward pass still succeeds (the
zero-channel convolution contributes only its bias, so the gate
degenerates to a constant); "the forward pass cannot succeed" is false. -/
theorem claim_C9_counterexample :
    (PALayer.make 4 zeroPALayerW).conv1.outC = 0
    ∧ (CALayer.make 4 zeroCALayerW).conv1.outC = 0
    ∧ (PALayer.make 4 zeroPALayerW).forward (zeros 1 4 1 1) ≠ none
    ∧ (CALayer.make 4 zeroCALayerW).forward (zeros 1 4 1 1) ≠ none := by
  refine ⟨rfl, rfl, ?_, ?_⟩
  · obtain ⟨z, ez, _⟩ :=
      PALayer_make_forward_shape 4 zeroPALayerW (zeros 1 4 1 1) rfl
        (by decide) (by decide)
    simp [ez]
  · obtain ⟨z, ez, _⟩ :=
      CALayer_make_forward_shape 4 zeroCALayerW (zeros 1 4 1 1) rfl
        (by decide) (by decide)
    simp [ez]

/-- Claim C9 (amended): the hidden layer of the PALayer/CALayer gate has
channel // 8 channels (integer division), which is zero for every
channel argument below 8; the forward pass nevertheless succeeds,
shape-preserving, for every channel count (the zero-channel hidden
convolution makes the gate degenerate rather than ill-formed); for
channel >= 8 the gate pipeline is well-formed with a nonzero hidden
width. -/
theorem claim_C9_amended_hidden_channels (channel : ℕ) (wp : PALayerW)
    (wc : CALayerW) (x : Tensor) (hc : x.channels = channel)
    (hH : 1 ≤ x.height) (hW : 1 ≤ x.width) :
    (PALayer.make channel wp).conv1.outC = channel / 8
    ∧ (CALayer.make channel wc).conv1.outC = channel / 8
    ∧ (channel < 8 → (PALayer.make channel wp).conv1.outC = 0)
    ∧ (8 ≤ channel → 1 ≤ (PALayer.make channel wp).conv1.outC)
    ∧ (∃ y, (PALayer.make channel wp).forward x = some y ∧ y.batch = x.batch
        ∧ y.channels = x.channels ∧ y.height = x.height ∧ y.width = x.width)
    ∧ (∃ y, (CALayer.make channel wc).forward x = some y ∧ y.batch = x.batch
        ∧ y.channels = x.channels ∧ y.height = x.height ∧ y.width = x.width) := by
  refine ⟨rfl, rfl, ?_, ?_, PALayer_make_forward_shape channel wp x hc hH hW,
    CALayer_make_forward_shape channel wc x hc hH hW⟩
  · intro h
    simp only [PALayer_make_conv1, Conv2d_make_outC]
    omega
  · intro h
    simp only [PALayer_make_conv1, Conv2d_make_outC]
    omega

theorem claim_C9_amended_hidden_channels_witness :
    (zeros 1 4 1 1).channels = 4
    ∧ ((PALayer.make 4 zeroPALayerW).conv1.outC = 4 / 8
    ∧ (CALayer.make 4 zeroCALayerW).conv1.outC = 4 / 8
    ∧ (4 < 8 → (PALayer.make 4 zeroPALayerW).conv1.outC = 0)
    ∧ (8 ≤ 4 → 1 ≤ (PALayer.make 4 zeroPALayerW).conv1.outC)
    ∧ (∃ y, (PALayer.make 4 zeroPALayerW).forward (zeros 1 4 1 1) = some y
        ∧ y.batch = 1 ∧ y.channels = 4 ∧ y.height = 1 ∧ y.width = 1)
    ∧ (∃ y, (CALayer.make 4 zeroCALayerW).forward (zeros 1 4 1 1) = some y
        ∧ y.batch = 1 ∧ y.channels = 4 ∧ y.height = 1 ∧ y.width = 1)) :=
  ⟨rfl, claim_C9_amended_hidden_channels 4 zeroPALayerW zeroCALayerW
    (zeros 1 4 1 1) rfl (by decide) (by decide)⟩

/-- Claim C10: with bilinear=False the transposed convolution reduces x1
from in_channels to in_channels // 2 channels while the DoubleConv still
declares in_channels inputs, so the forward succeeds exactly when the
skip tensor x2 carries the remaining in_channels - in_channels // 2
channels, and fails at the DoubleConv for every other channel count;
with bilinear=True, x1 keeps its channel count and the forward succeeds
exactly when x2's and x1's channel counts sum to in_channels.  Success
is stated for inputs with nonempty spatial extents (valid tensors; the
framework's upsampling and transposed convolution reject empty inputs);
the failure directions hold unconditionally. -/
theorem claim_C10_up_channel_wiring (inC outC : ℕ) (norm leaky : Bool) (w : UpW)
    (x1 x2 : Tensor) (hb : x1.batch = x2.batch) (hc1 : x1.channels = inC)
    (h1H : 1 ≤ x1.height) (h1W : 1 ≤ x1.width)
    (hH : 1 ≤ x2.height) (hW : 1 ≤ x2.width) :
    (Up.make inC outC false norm leaky w).upT.outC = inC / 2
    ∧ (Up.make inC outC false norm leaky w).conv.conv1.inC = inC
    ∧ (x2.channels = inC - inC / 2 →
        ∃ z, (Up.make inC outC false norm leaky w).forward x1 x2 = some z
          ∧ z.batch = x2.batch ∧ z.channels = outC ∧ z.height = x2.height
          ∧ z.width = x2.width)
    ∧ (x2.channels ≠ inC - inC / 2 →
        (Up.make inC outC false norm leaky w).forward x1 x2 = none)
    ∧ (∀ z1 z2 : Tensor, z1.batch = z2.batch → 1 ≤ z2.height → 1 ≤ z2.width →
        (z2.channels + z1.channels = inC → 1 ≤ z1.height → 1 ≤ z1.width →
          ∃ y, (Up.make inC outC true norm leaky w).forward z1 z2 = some y
            ∧ y.batch = z2.batch ∧ y.channels = outC ∧ y.height = z2.height
            ∧ y.width = z2.width)
        ∧ (z2.channels + z1.channels ≠ inC →
          (Up.make inC outC true norm leaky w).forward z1 z2 = none)) := by
  refine ⟨rfl, rfl, ?_, ?_, ?_⟩
  · intro h
    exact Up_make_forward_shape_convT inC outC norm leaky w x1 x2 hb hc1
      (by omega) h1H h1W hH hW
  · intro h
    exact Up_make_forward_none_convT inC outC norm leaky w x1 x2 hb hc1 (by omega)
  · intro z1 z2 hzb hzH hzW
    constructor
    · intro h hz1H hz1W
      exact Up_make_forward_shape inC outC norm leaky w z1 z2 hzb h hz1H hz1W hzH hzW
    · intro h
      exact Up_make_forward_none inC outC norm leaky w z1 z2 hzb h

theorem claim_C10_up_channel_wiring_witness :
    (zeros 1 64 3 3).channels = 64
    ∧ ((Up.make 64 32 false true true zeroUpW).upT.outC = 64 / 2
    ∧ (Up.make 64 32 false true true zeroUpW).conv.conv1.inC = 64
    ∧ ((zeros 1 32 7 7).channels = 64 - 64 / 2 →
        ∃ z, (Up.make 64 32 false true true zeroUpW).forward
            (zeros 1 64 3 3) (zeros 1 32 7 7) = some z
          ∧ z.batch = 1 ∧ z.channels = 32 ∧ z.height = 7 ∧ z.width = 7)
    ∧ ((zeros 1 32 7 7).channels ≠ 64 - 64 / 2 →
        (Up.make 64 32 false true true zeroUpW).forward
          (zeros 1 64 3 3) (zeros 1 32 7 7) = none)
    ∧ (∀ z1 z2 : Tensor, z1.batch = z2.batch → 1 ≤ z2.height → 1 ≤ z2.width →
        (z2.channels + z1.channels = 64 → 1 ≤ z1.height → 1 ≤ z1.width →
          ∃ y, (Up.make 64 32 true true true zeroUpW).forward z1 z2 = some y
            ∧ y.batch = z2.batch ∧ y.channels = 32 ∧ y.height = z2.height
            ∧ y.width = z2.width)
        ∧ (z2.channels + z1.channels ≠ 64 →
          (Up.make 64 32 true true true zeroUpW).forward z1 z2 = none))) :=
  ⟨rfl, claim_C10_up_channel_wiring 64 32 true true zeroUpW
    (zeros 1 64 3 3) (zeros 1 32 7 7) rfl rfl (by decide) (by decide)
    (by decide) (by decide)⟩

/-- Claim C7 counterexample: a 12 x 12 input (12 not divisible by 8)
passes through BaseNet without any failure, and a 6 x 6 input (6 not
divisible by 4) passes through FuseNet without any failure — the
padding step inside Up re-aligns the tensors before concatenation, so
no dimension-mismatch error occurs for non-divisible spatial sizes. -/
theorem claim_C7_counterexample :
    ¬ (8 ∣ 12) ∧ ¬ (4 ∣ 6)
    ∧ (BaseNet.make 1 1 true zeroBaseNetW).forward (zeros 1 1 12 12) ≠ none
    ∧ (FuseNet.make 1 1 false zeroFuseNetW).forward (zeros 1 1 6 6) ≠ none := by
  refine ⟨by decide, by decide, ?_, ?_⟩
  · obtain ⟨z, ez, _⟩ :=
      BaseNet_make_forward_shape 1 1 true zeroBaseNetW (zeros 1 1 12 12) rfl
        (by decide) (by decide)
    simp [ez]
  · obtain ⟨z, ez, _⟩ :=
      FuseNet_make_forward_shape 1 1 false zeroFuseNetW (zeros 1 1 6 6) rfl
        (by decide) (by decide)
    simp [ez]

/-- Claim C7 (amended): the forward pass does not fail for inputs whose
spatial dimensions are merely not divisible by the required power of 2:
for every input with H, W >= 8 (BaseNet/IAN/ANSN; >= 4 for FuseNet),
divisible or not, the padding inside Up re-aligns the tensors before
the concatenation and the forward pass succeeds, returning a tensor of
the input's spatial size. -/
theorem claim_C7_amended_no_cat_failure (inC outC : ℕ) (norm normF : Bool)
    (wB : BaseNetW) (wF : FuseNetW) (x y : Tensor)
    (hxc : x.channels = inC) (hxh : 8 ≤ x.height) (hxw : 8 ≤ x.width)
    (hyc : y.channels = inC) (hyh : 4 ≤ y.height) (hyw : 4 ≤ y.width) :
    (∃ z, (BaseNet.make inC outC norm wB).forward x = some z
        ∧ z.shape = (x.batch, outC, x.height, x.width))
    ∧ (∃ z, (IAN.make inC outC norm wB).forward x = some z
        ∧ z.shape = (x.batch, outC, x.height, x.width))
    ∧ (∃ z, (ANSN.make inC outC norm wB).forward x = some z
        ∧ z.shape = (x.batch, outC, x.height, x.width))
    ∧ (∃ z, (FuseNet.make inC outC normF wF).forward y = some z
        ∧ z.shape = (y.batch, outC, y.height, y.width)) := by
  obtain ⟨z1, e1, b1, c1, h1, w1, _⟩ :=
    BaseNet_make_forward_shape inC outC norm wB x hxc hxh hxw
  obtain ⟨z2, e2, b2, c2, h2, w2⟩ :=
    ANSN_make_forward_shape inC outC norm wB x hxc hxh hxw
  obtain ⟨z3, e3, b3, c3, h3, w3, _⟩ :=
    FuseNet_make_forward_shape inC outC normF wF y hyc hyh hyw
  refine ⟨⟨z1, e1, ?_⟩, ⟨z1, e1, ?_⟩, ⟨z2, e2, ?_⟩, ⟨z3, e3, ?_⟩⟩
  · simp [Tensor.shape, b1, c1, h1, w1]
  · simp [Tensor.shape, b1, c1, h1, w1]
  · simp [Tensor.shape, b2, c2, h2, w2]
  · simp [Tensor.shape, b3, c3, h3, w3]

theorem claim_C7_amended_no_cat_failure_witness :
    (zeros 1 1 12 13).channels = 1
    ∧ ((∃ z, (BaseNet.make 1 1 true zeroBaseNetW).forward (zeros 1 1 12 13) = some z
        ∧ z.shape = (1, 1, 12, 13))
    ∧ (∃ z, (IAN.make 1 1 true zeroBaseNetW).forward (zeros 1 1 12 13) = some z
        ∧ z.shape = (1, 1, 12, 13))
    ∧ (∃ z, (ANSN.make 1 1 true zeroBaseNetW).forward (zeros 1 1 12 13) = some z
        ∧ z.shape = (1, 1, 12, 13))
    ∧ (∃ z, (FuseNet.make 1 1 false zeroFuseNetW).forward (zeros 1 1 6 7) = some z
        ∧ z.shape = (1, 1, 6, 7))) :=
  ⟨rfl, claim_C7_amended_no_cat_failure 1 1 true false zeroBaseNetW zeroFuseNetW
    (zeros 1 1 12 13) (zeros 1 1 6 7) rfl (by decide) (by decide) rfl
    (by decide) (by decide)⟩
